import Mathlib

set_option maxRecDepth 20000

/- Verification of the pyAIML core.  Each definition below is a shallow
embedding of the corresponding Python code in core_aiml/pattern_mgr.py,
core_aiml/kernel.py or core_aiml/aiml_parser.py; the theorems at the end of
the file settle the specification claims against these definitions. -/

/-! ## Pattern index (core_aiml/pattern_mgr.py) -/

/-- Dictionary keys of the PatternMgr trie (pattern_mgr.py, class constants
UNDERSCORE = 0, STAR = 1, TEMPLATE = 2, THAT = 3, TOPIC = 4, BOT NAME = 5;
literal uppercase words are string keys).  The TEMPLATE entry is modelled as
the template slot of a node (see Trie) because its dictionary value is a
template payload rather than a child node. -/
inductive PatKey where
  | word (w : String)
  | underscore
  | star
  | botName
  | thatMark
  | topicMark
deriving DecidableEq, Repr

/-- A trie node: the children dictionary (token key to child node) together
with the optional template stored under the TEMPLATE key at this node. -/
inductive Trie (τ : Type) where
  | mk (children : List (PatKey × Trie τ)) (template : Option τ)

variable {τ : Type} {κ : Type} {β : Type}

def Trie.children : Trie τ → List (PatKey × Trie τ)
  | .mk cs _ => cs

def Trie.template : Trie τ → Option τ
  | .mk _ t => t

/-- Python dictionary lookup over an association list. -/
def alookup [DecidableEq κ] (k : κ) : List (κ × β) → Option β
  | [] => none
  | (k1, v) :: rest => if k1 = k then some v else alookup k rest

/-- Python dictionary assignment: replace the binding in place when the key
is present, otherwise append a new binding. -/
def aset [DecidableEq κ] (k : κ) (v : β) : List (κ × β) → List (κ × β)
  | [] => [(k, v)]
  | (k1, v1) :: rest =>
    if k1 = k then (k1, v) :: rest else (k1, v1) :: aset k v rest

/-- The empty trie node, as created by PatternMgr.__init__. -/
def emptyTrie : Trie τ := Trie.mk [] none

/-- Penalty term of the matcher's termination measure: switching to a
pending non-empty that/topic word list costs one extra step. -/
def pend : List String → Nat
  | [] => 0
  | _ :: _ => 1

/-- Termination measure of the recursion in PatternMgr._match: every
recursive call of the source strictly decreases it. -/
def matchMeasure (words thatWords topicWords : List String) : Nat :=
  words.length + thatWords.length + topicWords.length + pend thatWords + pend topicWords

/-- Shallow embedding of PatternMgr._match (pattern_mgr.py lines 254-337),
with an explicit structural fuel so that the definition computes by kernel
reduction.  The fuel is a bootstrapping device only: patMatch below always
supplies fuel exceeding the termination measure of the source recursion, and
the lemmas patMatchF_mono / patMatch_nil_eq / patMatch_cons_eq recover the
source's recursion equations exactly, independent of the fuel.

Arguments: bot name (self._bot_name), fuel, pattern words, that words, topic
words, current node.  Returns the (node-path, template) pair on success and
none where the source returns a None template.  Candidate order at a
non-empty word position follows the source: the UNDERSCORE child (consuming
the current word plus j = 0 .. len(suffix) further words, shortest first),
then the literal word child, then the BOT NAME child when the word equals
the bot name, then the STAR child with the same consumption search.  When
the words are exhausted, a pending that sequence is matched under the THAT
child, else a pending topic sequence under the TOPIC child, else the
template stored at this node is returned; the source guards the path
prepends with the Python truthiness test "if pattern:", reproduced here. -/
def patMatchF (bn : String) :
    Nat → List String → List String → List String → Trie τ → Option (List PatKey × τ)
  | 0, _, _, _, _ => none
  | fuel + 1, [], thatWords, topicWords, root =>
    let viaCtx : Option (List PatKey × τ) :=
      match thatWords with
      | t :: ts =>
        (match alookup PatKey.thatMark root.children with
         | some tn =>
           (patMatchF bn fuel (t :: ts) [] topicWords tn).map
             (fun pt => (if pt.1 = [] then pt.1 else PatKey.thatMark :: pt.1, pt.2))
         | none => none)
      | [] =>
        match topicWords with
        | p :: ps =>
          (match alookup PatKey.topicMark root.children with
           | some tn =>
             (patMatchF bn fuel (p :: ps) [] [] tn).map
               (fun pt => (if pt.1 = [] then pt.1 else PatKey.topicMark :: pt.1, pt.2))
           | none => none)
        | [] => none
    (match viaCtx with
     | some r => some r
     | none => root.template.map (fun t => ([], t)))
  | fuel + 1, first :: suffix, thatWords, topicWords, root =>
    let tryUnder : Option (List PatKey × τ) :=
      match alookup PatKey.underscore root.children with
      | some child =>
        (List.range (suffix.length + 1)).findSome? (fun j =>
          (patMatchF bn fuel (suffix.drop j) thatWords topicWords child).map
            (fun pt => (PatKey.underscore :: pt.1, pt.2)))
      | none => none
    let tryWord : Option (List PatKey × τ) :=
      match alookup (PatKey.word first) root.children with
      | some child =>
        (patMatchF bn fuel suffix thatWords topicWords child).map
          (fun pt => (PatKey.word first :: pt.1, pt.2))
      | none => none
    let tryBot : Option (List PatKey × τ) :=
      match alookup PatKey.botName root.children with
      | some child =>
        if first = bn then
          (patMatchF bn fuel suffix thatWords topicWords child).map
            (fun pt => (PatKey.word first :: pt.1, pt.2))
        else none
      | none => none
    let tryStar : Option (List PatKey × τ) :=
      match alookup PatKey.star root.children with
      | some child =>
        (List.range (suffix.length + 1)).findSome? (fun j =>
          (patMatchF bn fuel (suffix.drop j) thatWords topicWords child).map
            (fun pt => (PatKey.star :: pt.1, pt.2)))
      | none => none
    tryUnder.orElse (fun _ =>
      tryWord.orElse (fun _ => tryBot.orElse (fun _ => tryStar)))

/-- The recursive matcher of PatternMgr._match: patMatchF run with fuel
strictly greater than the termination measure of the source recursion. -/
def patMatch (bn : String) (words thatWords topicWords : List String)
    (root : Trie τ) : Option (List PatKey × τ) :=
  patMatchF bn (matchMeasure words thatWords topicWords + 1)
    words thatWords topicWords root

/-- The step taken by PatternMgr._match when the word list is exhausted:
recurse under the THAT child when a that sequence is pending, else under the
TOPIC child when a topic sequence is pending, else nothing. -/
def ctxStep (bn : String) (thatWords topicWords : List String) (root : Trie τ) :
    Option (List PatKey × τ) :=
  match thatWords with
  | t :: ts =>
    (match alookup PatKey.thatMark root.children with
     | some tn =>
       (patMatch bn (t :: ts) [] topicWords tn).map
         (fun pt => (if pt.1 = [] then pt.1 else PatKey.thatMark :: pt.1, pt.2))
     | none => none)
  | [] =>
    match topicWords with
    | p :: ps =>
      (match alookup PatKey.topicMark root.children with
       | some tn =>
         (patMatch bn (p :: ps) [] [] tn).map
           (fun pt => (if pt.1 = [] then pt.1 else PatKey.topicMark :: pt.1, pt.2))
       | none => none)
    | [] => none

/-- The growing-consumption search of the UNDERSCORE/STAR branches, written
as structural recursion on the remaining suffix: try letting the wildcard
consume only the current word (recursing on the whole suffix), then one more
word, and so on down to the whole remainder — shortest consumption first,
exactly the order of the for-j loop in PatternMgr._match. -/
def wildSearch (bn : String) (thatWords topicWords : List String) (child : Trie τ) :
    List String → Option (List PatKey × τ)
  | [] => patMatch bn [] thatWords topicWords child
  | w :: rest =>
    (patMatch bn (w :: rest) thatWords topicWords child).orElse
      (fun _ => wildSearch bn thatWords topicWords child rest)

/-- Candidate (1) of PatternMgr._match at a non-empty word position: the
UNDERSCORE child with the growing-consumption search. -/
def underBranch (bn : String) (root : Trie τ) (first : String)
    (suffix thatWords topicWords : List String) : Option (List PatKey × τ) :=
  match alookup PatKey.underscore root.children with
  | some child =>
    (wildSearch bn thatWords topicWords child suffix).map
      (fun pt => (PatKey.underscore :: pt.1, pt.2))
  | none => none

/-- Candidate (2): the literal child for the current word. -/
def wordBranch (bn : String) (root : Trie τ) (first : String)
    (suffix thatWords topicWords : List String) : Option (List PatKey × τ) :=
  match alookup (PatKey.word first) root.children with
  | some child =>
    (patMatch bn suffix thatWords topicWords child).map
      (fun pt => (PatKey.word first :: pt.1, pt.2))
  | none => none

/-- Candidate (3): the BOT NAME child, taken only when the current word
equals the configured bot name (the matched path records the literal word,
as in the source). -/
def botBranch (bn : String) (root : Trie τ) (first : String)
    (suffix thatWords topicWords : List String) : Option (List PatKey × τ) :=
  match alookup PatKey.botName root.children with
  | some child =>
    if first = bn then
      (patMatch bn suffix thatWords topicWords child).map
        (fun pt => (PatKey.word first :: pt.1, pt.2))
    else none
  | none => none

/-- Candidate (4): the STAR child with the growing-consumption search. -/
def starBranch (bn : String) (root : Trie τ) (first : String)
    (suffix thatWords topicWords : List String) : Option (List PatKey × τ) :=
  match alookup PatKey.star root.children with
  | some child =>
    (wildSearch bn thatWords topicWords child suffix).map
      (fun pt => (PatKey.star :: pt.1, pt.2))
  | none => none


/-! ### Insertion (PatternMgr.add, pattern_mgr.py lines 71-128) -/

/-- Key mapping for pattern words (add, lines 82-89): underscore, star and
the BOT_NAME placeholder are special. -/
def patWordKey (w : String) : PatKey :=
  if w = ("_") then PatKey.underscore
  else if w = ("*") then PatKey.star
  else if w = ("BOT_NAME") then PatKey.botName
  else PatKey.word w

/-- Key mapping for that/topic words (add, lines 99-104 and 114-119): only
underscore and star are special — BOT_NAME is not translated there. -/
def ctxWordKey (w : String) : PatKey :=
  if w = ("_") then PatKey.underscore
  else if w = ("*") then PatKey.star
  else PatKey.word w

/-- Walk/create trie nodes along a key path and store the template at the
final node.  Returns the updated node and whether the final node had no
TEMPLATE entry yet (in which case add increments the template counter). -/
def addPath (node : Trie τ) (t : τ) : List PatKey → Trie τ × Bool
  | [] => (Trie.mk node.children (some t), node.template.isNone)
  | k :: ks =>
    let child := (alookup k node.children).getD emptyTrie
    let r := addPath child t ks
    (Trie.mk (aset k r.1 node.children) node.template, r.2)

/-- The full key path of a category: the pattern words, then — when the that
pattern is non-empty — the THAT marker and the that words, then — when the
topic is non-empty — the TOPIC marker and the topic words (add, lines
79-122). -/
def categoryKeys (pattern that topic : List String) : List PatKey :=
  pattern.map patWordKey ++
    (match that with
     | [] => []
     | _ :: _ => PatKey.thatMark :: that.map ctxWordKey) ++
    (match topic with
     | [] => []
     | _ :: _ => PatKey.topicMark :: topic.map ctxWordKey)

/-- The PatternMgr state: root node, template counter and bot name
(pattern_mgr.py __init__). -/
structure PatternMgr (τ : Type) where
  root : Trie τ
  templateCount : Nat
  botName : String

/-- A freshly constructed PatternMgr. -/
def newMgr : PatternMgr τ :=
  { root := emptyTrie, templateCount := 0, botName := ("Nameless") }

/-- Shallow embedding of PatternMgr.add over tokenized pattern/that/topic
word lists (the source splits its string arguments on whitespace first; the
emptiness tests on the that/topic strings become emptiness tests on their
word lists).  The counter increments exactly when the final node had no
TEMPLATE entry yet. -/
def PatternMgr.add (m : PatternMgr τ) (pattern that topic : List String) (t : τ) :
    PatternMgr τ :=
  let r := addPath m.root t (categoryKeys pattern that topic)
  { root := r.1,
    templateCount := m.templateCount + (if r.2 then 1 else 0),
    botName := m.botName }

/-- Sentinel substituted for an empty that input (match, line 144). -/
def dummyThat : String := ("ULTRABOGUSDUMMYTHAT")

/-- Sentinel substituted for an empty topic input (match, line 148). -/
def dummyTopic : String := ("ULTRABOGUSDUMMYTOPIC")

/-- Shallow embedding of PatternMgr.match over normalized token lists: the
source uppercases its string arguments, strips punctuation to spaces and
splits on whitespace; this entry point takes the resulting word lists.  An
empty input returns None; empty that/topic sequences are replaced by the
sentinel words so those dimensions are never empty. -/
def PatternMgr.matchTokens (m : PatternMgr τ)
    (input thatWords topicWords : List String) : Option τ :=
  match input with
  | [] => none
  | _ :: _ =>
    let tw := match thatWords with
      | [] => [dummyThat]
      | _ :: _ => thatWords
    let pw := match topicWords with
      | [] => [dummyTopic]
      | _ :: _ => topicWords
    (patMatch m.botName input tw pw m.root).map (fun pt => pt.2)

/-! ## Kernel (core_aiml/kernel.py) -/

/-- Python runtime errors raised on the modelled code paths.  The outOfFuel
variant is a modelling artifact marking exhaustion of the evaluator's
structural fuel; it is never the behavior of the source, and every theorem
about concrete runs exhibits a fuel large enough to avoid it. -/
inductive PyErr where
  | typeError
  | keyError
  | attributeError
  | indexError
  | assertionError
  | outOfFuel
deriving DecidableEq, Repr

/-- Count of positional parameters besides self in the definition of
PatternMgr.add (pattern_mgr.py line 71): the Python 2 tuple-unpacking
parameter (pattern, that, topic) plus the template parameter — two. -/
def addParamCount : Nat := 2

/-- Count of positional arguments besides self supplied at the call site in
Kernel.learn (kernel.py line 315): pattern, that, topic, tem — four. -/
def learnAddArgCount : Nat := 4

/-- The category-storing loop of Kernel.learn (kernel.py lines 312-315).
For each parsed category it invokes self._brain.add with learnAddArgCount
positional arguments, while PatternMgr.add declares addParamCount positional
parameters; Python raises a TypeError before entering the callee body
whenever the two counts differ, which the arity guard below models.  The
exception propagates (there is no handler around the loop), so the add body
runs for no category once the counts disagree. -/
def learnStoreCategories (m : PatternMgr τ) :
    List ((List String × List String × List String) × τ) →
      Except PyErr (PatternMgr τ)
  | [] => Except.ok m
  | (key, tem) :: rest =>
    if learnAddArgCount = addParamCount then
      learnStoreCategories (m.add key.1 key.2.1 key.2.2 tem) rest
    else Except.error PyErr.typeError

/-- A template-tree node as built by the AIML parser: a tag element
[name, attribute-dict, children...] or a text element
[text-tag, whitespace-mode, string]. -/
inductive Elem where
  | tag (name : String) (attrs : List (String × String)) (children : List Elem)
  | text (space : String) (content : String)

/-- The Python tag of an element (elem[0]); text elements carry the
pseudo-tag text. -/
def Elem.tagName : Elem → String
  | .tag n _ _ => n
  | .text _ _ => ("text")

/-- The attribute dictionary of an element (elem[1]). -/
def Elem.attrs : Elem → List (String × String)
  | .tag _ a _ => a
  | .text sp _ => [(("xml:space"), sp)]

mutual
/-- Python value equality of element trees, as used by the comparison
li == listitems[-1] in Kernel._process_condition. -/
def Elem.beq : Elem → Elem → Bool
  | .text s1 c1, .text s2 c2 => s1 == s2 && c1 == c2
  | .tag n1 a1 cs1, .tag n2 a2 cs2 => n1 == n2 && a1 == a2 && Elem.beqList cs1 cs2
  | _, _ => false
def Elem.beqList : List Elem → List Elem → Bool
  | [], [] => true
  | x :: xs, y :: ys => Elem.beq x y && Elem.beqList xs ys
  | _, _ => false
end

/-- A session predicate value: Python stores strings (set_predicate from
templates and the public API) or lists of strings (the reserved history and
input-stack predicates). -/
inductive PyVal where
  | str (s : String)
  | lst (l : List String)
deriving DecidableEq, Repr

/-- Python len() of a predicate value: characters of a string, items of a
list. -/
def pyLen : PyVal → Nat
  | .str s => s.length
  | .lst l => l.length

/-- Python list.append(x) on a predicate value: a string has no append
method, so an AttributeError is raised. -/
def pyAppend (v : PyVal) (x : String) : Except PyErr (List String) :=
  match v with
  | .lst l => Except.ok (l ++ [x])
  | .str _ => Except.error PyErr.attributeError

/-- Python list.pop() on a predicate value: IndexError on an empty list,
AttributeError on a string. -/
def pyPop (v : PyVal) : Except PyErr (List String) :=
  match v with
  | .lst [] => Except.error PyErr.indexError
  | .lst l => Except.ok l.dropLast
  | .str _ => Except.error PyErr.attributeError

/-- The value of seq[-1] under the source's except-IndexError fallback to
the empty string: last item of a list, last character of a non-empty string,
empty string otherwise. -/
def pyLastD : PyVal → String
  | .lst l => l.getLastD ("")
  | .str s => if s.isEmpty then ("") else s.takeRight 1

/-- Python == between a predicate value and an attribute string: lists never
equal strings. -/
def pyEqStr : PyVal → String → Bool
  | .str s, v => s == v
  | .lst _, _ => false

/-- Python truthiness of dict.get(k, False) for a string attribute: false
when absent or empty. -/
def truthy : Option String → Bool
  | none => false
  | some s => !(s == (""))

/-- Reserved predicate key of the input history queue (kernel.py line 34). -/
def inputHistoryKey : String := ("_inputHistory")

/-- Reserved predicate key of the output history queue (kernel.py line 35). -/
def outputHistoryKey : String := ("_outputHistory")

/-- Reserved predicate key of the input stack (kernel.py line 36). -/
def inputStackKey : String := ("_inputStack")

/-- Kernel._max_history_size (kernel.py line 31). -/
def maxHistorySize : Nat := 10

/-- Kernel._max_recursion_depth (kernel.py line 32). -/
def maxRecursionDepth : Nat := 100

/-- A session: its predicate dictionary. -/
def Session : Type := List (String × PyVal)

/-- The kernel state threaded through the evaluator: the session
dictionaries, the bot predicates and the brain. -/
structure KernelState where
  sessions : List (String × Session)
  botPredicates : List (String × String)
  brain : PatternMgr Elem

/-- The fresh session dictionary created by Kernel._add_session. -/
def newSession : Session :=
  [(inputHistoryKey, PyVal.lst []), (outputHistoryKey, PyVal.lst []),
   (inputStackKey, PyVal.lst [])]

/-- Kernel._add_session: create the session unless the sessions dict already
holds a truthy (non-empty) dictionary for this id. -/
def addSession (st : KernelState) (sid : String) : KernelState :=
  match alookup sid st.sessions with
  | some (b :: bs) =>
    let _ := b
    let _ := bs
    st
  | _ => { st with sessions := aset sid newSession st.sessions }

/-- Kernel.get_predicate: the stored value, or the empty string when the
session or the predicate does not exist. -/
def getPredicate (st : KernelState) (sid name : String) : PyVal :=
  match alookup sid st.sessions with
  | none => PyVal.str ("")
  | some sess =>
    match alookup name sess with
    | none => PyVal.str ("")
    | some v => v

/-- Kernel.set_predicate: create the session if needed, then bind the
predicate. -/
def setPredicate (st : KernelState) (sid name : String) (v : PyVal) : KernelState :=
  let st1 := addSession st sid
  match alookup sid st1.sessions with
  | some sess => { st1 with sessions := aset sid (aset name v sess) st1.sessions }
  | none => st1

/-- Kernel.get_bot_predicate: empty string when absent. -/
def getBotPredicate (st : KernelState) (name : String) : String :=
  (alookup name st.botPredicates).getD ("")

/-- Whitespace collapsing of re.sub over a whitespace-run pattern: each
maximal run of whitespace becomes a single space.  The flag records whether
the previous character was part of a run being collapsed. -/
def collapseAux : Bool → List Char → List Char
  | _, [] => []
  | prevWs, c :: rest =>
    if c.isWhitespace then
      if prevWs then collapseAux true rest
      else (' ') :: collapseAux true rest
    else c :: collapseAux false rest

/-- The one-time whitespace collapse applied to text elements with the
default whitespace mode (Kernel._process_text, kernel.py line 984). -/
def collapseWs (s : String) : String :=
  String.mk (collapseAux false s.data)

/-- Python str.strip(): drop whitespace from both ends. -/
def pyStrip (s : String) : String :=
  String.mk (((s.data.dropWhile Char.isWhitespace).reverse.dropWhile
    Char.isWhitespace).reverse)

/-- Python str.upper() over the modelled ASCII strings. -/
def pyUpper (s : String) : String :=
  String.mk (s.data.map Char.toUpper)

/-- Accumulator-based Python str.split() with no argument: split on
whitespace runs, discarding empty tokens. -/
def splitWsAux : List Char → List Char → List String
  | acc, [] =>
    match acc with
    | [] => []
    | _ :: _ => [String.mk acc.reverse]
  | acc, c :: rest =>
    if c.isWhitespace then
      match acc with
      | [] => splitWsAux [] rest
      | _ :: _ => String.mk acc.reverse :: splitWsAux [] rest
    else splitWsAux (c :: acc) rest

/-- Python str.split() with no argument. -/
def pySplit (s : String) : List String :=
  splitWsAux [] s.data

/-- The punctuation characters of PatternMgr's puncStripRE (pattern_mgr.py
line 24); the characters that cannot appear literally in this source are
written through their code points (34 quote, 96 backtick, 123/125 braces,
92 backslash, 39 apostrophe). -/
def punctuationChars : List Char :=
  [Char.ofNat 34, Char.ofNat 96, '~', '!', '@', '#', '$', '%', '^', '&',
   '*', '(', ')', '-', '_', '=', '+', '[', Char.ofNat 123, ']',
   Char.ofNat 125, Char.ofNat 92, '|', ';', ':', Char.ofNat 39, ',', '<',
   '.', '>', '/', '?']

/-- The re.sub of puncStripRE: replace each punctuation character by a
space. -/
def stripPunctuation (s : String) : String :=
  String.mk (s.data.map (fun c => if punctuationChars.contains c then (' ') else c))

/-- The input mutilation of PatternMgr.match: uppercase, then punctuation to
spaces (the additional whitespace-run collapse applied to that/topic does
not change the word list produced by splitting). -/
def mutilate (s : String) : String :=
  stripPunctuation (pyUpper s)

/-- Shallow embedding of PatternMgr.match over strings (pattern_mgr.py lines
130-154): an empty pattern returns None; that and topic are replaced by the
sentinels when whitespace-only; all three strings are mutilated and split,
and the word lists go to the recursive matcher. -/
def PatternMgr.matchS (m : PatternMgr τ) (pattern that topic : String) : Option τ :=
  if pattern.length = 0 then none
  else
    let inputWords := pySplit (mutilate pattern)
    let that1 := if pyStrip that = ("") then dummyThat else that
    let thatWords := pySplit (mutilate that1)
    let topic1 := if pyStrip topic = ("") then dummyTopic else topic
    let topicWords := pySplit (mutilate topic1)
    (patMatch m.botName inputWords thatWords topicWords m.root).map (fun pt => pt.2)

/-- Modelled from the spec: the word-substitution collaborator (the WordSub
normal subber applied to every input/that/topic before matching) and the
sentence splitter (utils.sentences) are external collaborators whose sources
are not part of the covered core; the evaluator takes them as opaque
functions. -/
structure EvalCtx where
  normalSub : String → String
  sentences : String → List String

/-- A pending call of the template interpreter: processing one element,
processing a child list, processing a condition element, scanning condition
list items, or a (re-entrant) Kernel._respond call. -/
inductive EvalReq where
  | elem (st : KernelState) (sid : String) (e : Elem)
  | children (st : KernelState) (sid : String) (es : List Elem)
  | cond (st : KernelState) (sid : String) (attrs : List (String × String))
      (children : List Elem)
  | scan (st : KernelState) (sid : String) (nameAttr : Option String)
      (lastLi : Elem) (items : List Elem)
  | respond (st : KernelState) (sid : String) (input : String)

/-- The template interpreter and Kernel._respond as one fuel-structural
evaluator (so that it computes by kernel reduction; the mutually recursive
views are the wrappers processElement / processChildren / processCondition /
condScan / respondInner below, and their unfolding equations are
definitional).  The modelled element handlers are the ones the claims
exercise — text, template, li, bot, get, set, think, srai, condition
(kernel.py lines 457-573, 693-723, 860-872, 949-986, 1050-1062); any other
tag takes the missing-handler branch of Kernel._process_element, which
returns the empty string after a warning.  Each case follows its source
handler line by line; exceptions travel as Except errors, aborting the
enclosing call exactly as an uncaught Python exception would. -/
def evalK (ctx : EvalCtx) : Nat → EvalReq → Except PyErr (String × KernelState)
  | 0, _ => Except.error PyErr.outOfFuel
  | fuel + 1, EvalReq.elem st sid e =>
    match e with
    | Elem.text space content =>
      Except.ok ((if space = ("default") then collapseWs content else content), st)
    | Elem.tag name attrs children =>
      if name = ("template") then evalK ctx fuel (EvalReq.children st sid children)
      else if name = ("li") then evalK ctx fuel (EvalReq.children st sid children)
      else if name = ("bot") then
        match alookup ("name") attrs with
        | none => Except.error PyErr.keyError
        | some n => Except.ok (getBotPredicate st n, st)
      else if name = ("get") then
        match alookup ("name") attrs with
        | none => Except.error PyErr.keyError
        | some n =>
          match getPredicate st sid n with
          | PyVal.str s => Except.ok (s, st)
          | PyVal.lst _ => Except.error PyErr.typeError
      else if name = ("set") then
        match evalK ctx fuel (EvalReq.children st sid children) with
        | Except.error err => Except.error err
        | Except.ok (v, st1) =>
          match alookup ("name") attrs with
          | none => Except.error PyErr.keyError
          | some n => Except.ok (v, setPredicate st1 sid n (PyVal.str v))
      else if name = ("think") then
        match evalK ctx fuel (EvalReq.children st sid children) with
        | Except.error err => Except.error err
        | Except.ok (_, st1) => Except.ok (("", st1))
      else if name = ("srai") then
        match evalK ctx fuel (EvalReq.children st sid children) with
        | Except.error err => Except.error err
        | Except.ok (newInput, st1) => evalK ctx fuel (EvalReq.respond st1 sid newInput)
      else if name = ("condition") then
        evalK ctx fuel (EvalReq.cond st sid attrs children)
      else Except.ok (("", st))
  | fuel + 1, EvalReq.children st sid es =>
    match es with
    | [] => Except.ok (("", st))
    | e :: rest =>
      match evalK ctx fuel (EvalReq.elem st sid e) with
      | Except.error err => Except.error err
      | Except.ok (r, st1) =>
        match evalK ctx fuel (EvalReq.children st1 sid rest) with
        | Except.error err => Except.error err
        | Except.ok (rs, st2) => Except.ok ((r ++ rs, st2))
  | fuel + 1, EvalReq.cond st sid attrs children =>
    let nameAttr := (alookup ("name") attrs).getD ("")
    let valueAttr := (alookup ("value") attrs).getD ("")
    if nameAttr ≠ ("") ∧ valueAttr ≠ ("") then
      if pyEqStr (getPredicate st sid nameAttr) valueAttr then
        evalK ctx fuel (EvalReq.children st sid children)
      else Except.ok (("", st))
    else
      let nameOpt : Option String := if nameAttr ≠ ("") then some nameAttr else none
      match children.filter (fun c => c.tagName == ("li")) with
      | [] => Except.ok (("", st))
      | l0 :: ls => evalK ctx fuel (EvalReq.scan st sid nameOpt (ls.getLastD l0) (l0 :: ls))
  | fuel + 1, EvalReq.scan st sid nameAttr lastLi items =>
    match items with
    | [] =>
      if truthy (alookup ("name") lastLi.attrs) || truthy (alookup ("value") lastLi.attrs) then
        Except.ok (("", st))
      else evalK ctx fuel (EvalReq.elem st sid lastLi)
    | li :: rest =>
      if li.attrs.isEmpty && Elem.beq li lastLi then
        evalK ctx fuel (EvalReq.scan st sid nameAttr lastLi rest)
      else
        match (match nameAttr with
               | some n => Except.ok n
               | none =>
                 match alookup ("name") li.attrs with
                 | some n => Except.ok n
                 | none => Except.error PyErr.keyError) with
        | Except.error err => Except.error err
        | Except.ok liName =>
          match alookup ("value") li.attrs with
          | none => Except.error PyErr.keyError
          | some liValue =>
            if pyEqStr (getPredicate st sid liName) liValue then
              evalK ctx fuel (EvalReq.elem st sid li)
            else evalK ctx fuel (EvalReq.scan st sid nameAttr lastLi rest)
  | fuel + 1, EvalReq.respond st sid input =>
    if input = ("") then Except.ok (("", st))
    else
      let stackV := getPredicate st sid inputStackKey
      if pyLen stackV > maxRecursionDepth then Except.ok (("", st))
      else
        match pyAppend stackV input with
        | Except.error err => Except.error err
        | Except.ok stack1 =>
          let st1 := setPredicate st sid inputStackKey (PyVal.lst stack1)
          let subbedInput := ctx.normalSub input
          let subbedThat := ctx.normalSub (pyLastD (getPredicate st1 sid outputHistoryKey))
          match getPredicate st1 sid ("topic") with
          | PyVal.lst _ => Except.error PyErr.typeError
          | PyVal.str topic =>
            let subbedTopic := ctx.normalSub topic
            match st1.brain.matchS subbedInput subbedThat subbedTopic with
            | none =>
              match pyPop (getPredicate st1 sid inputStackKey) with
              | Except.error err => Except.error err
              | Except.ok stack2 =>
                Except.ok (("", setPredicate st1 sid inputStackKey (PyVal.lst stack2)))
            | some elem =>
              match evalK ctx fuel (EvalReq.elem st1 sid elem) with
              | Except.error err => Except.error err
              | Except.ok (r, st2) =>
                match pyPop (getPredicate st2 sid inputStackKey) with
                | Except.error err => Except.error err
                | Except.ok stack2 =>
                  Except.ok ((pyStrip r, setPredicate st2 sid inputStackKey (PyVal.lst stack2)))

/-- Kernel._process_element view of the evaluator. -/
def processElement (ctx : EvalCtx) (fuel : Nat) (st : KernelState) (sid : String)
    (e : Elem) : Except PyErr (String × KernelState) :=
  evalK ctx fuel (EvalReq.elem st sid e)

/-- Child-concatenation view of the evaluator (the response-building loops
of the handlers). -/
def processChildren (ctx : EvalCtx) (fuel : Nat) (st : KernelState) (sid : String)
    (es : List Elem) : Except PyErr (String × KernelState) :=
  evalK ctx fuel (EvalReq.children st sid es)

/-- Kernel._process_condition view of the evaluator. -/
def processCondition (ctx : EvalCtx) (fuel : Nat) (st : KernelState) (sid : String)
    (attrs : List (String × String)) (children : List Elem) :
    Except PyErr (String × KernelState) :=
  evalK ctx fuel (EvalReq.cond st sid attrs children)

/-- List-item scan of Kernel._process_condition (cases 2 and 3), including
the default-item handling when the scan finds no match. -/
def condScan (ctx : EvalCtx) (fuel : Nat) (st : KernelState) (sid : String)
    (nameAttr : Option String) (lastLi : Elem) (items : List Elem) :
    Except PyErr (String × KernelState) :=
  evalK ctx fuel (EvalReq.scan st sid nameAttr lastLi items)

/-- Kernel._respond view of the evaluator (kernel.py lines 378-428): empty
input short-circuits; a stack deeper than the recursion limit aborts with an
empty string; otherwise the input is pushed, normalized and matched, the
matched template is interpreted, and the pushed entry is popped. -/
def respondInner (ctx : EvalCtx) (fuel : Nat) (st : KernelState) (sid : String)
    (input : String) : Except PyErr (String × KernelState) :=
  evalK ctx fuel (EvalReq.respond st sid input)

/-- The history trimming loop of Kernel.respond: while the queue is longer
than the maximum, pop the front. -/
def trimHistory : List String → List String
  | [] => []
  | x :: xs => if (x :: xs).length > maxHistorySize then trimHistory xs else x :: xs

/-- The per-sentence loop of Kernel.respond (kernel.py lines 342-362):
append the sentence to the input history (trimming to the bound), fetch the
response through Kernel._respond, append it to the output history (again
trimming), and accumulate the response followed by two spaces.  After the
loop the accumulator is stripped and the input-stack assertion of line 365
is checked; its failure raises AssertionError. -/
def respondLoop (ctx : EvalCtx) (fuel : Nat) (sid : String) :
    List String → String → KernelState → Except PyErr (String × KernelState)
  | [], acc, st =>
    if pyLen (getPredicate st sid inputStackKey) = 0 then
      Except.ok (pyStrip acc, st)
    else Except.error PyErr.assertionError
  | s :: rest, acc, st =>
    match pyAppend (getPredicate st sid inputHistoryKey) s with
    | Except.error err => Except.error err
    | Except.ok ih =>
      let st1 := setPredicate st sid inputHistoryKey (PyVal.lst (trimHistory ih))
      match respondInner ctx fuel st1 sid s with
      | Except.error err => Except.error err
      | Except.ok (resp, st2) =>
        match pyAppend (getPredicate st2 sid outputHistoryKey) resp with
        | Except.error err => Except.error err
        | Except.ok oh =>
          let st3 := setPredicate st2 sid outputHistoryKey (PyVal.lst (trimHistory oh))
          respondLoop ctx fuel sid rest (acc ++ resp ++ ("  ")) st3

/-- Kernel.respond (kernel.py lines 320-372): empty input returns the empty
string untouched; otherwise the session is created if needed, the input is
split into sentences by the external collaborator, and the per-sentence loop
runs. -/
def respond (ctx : EvalCtx) (fuel : Nat) (st : KernelState) (sid input : String) :
    Except PyErr (String × KernelState) :=
  if input = ("") then Except.ok (("", st))
  else
    let st1 := addSession st sid
    respondLoop ctx fuel sid (ctx.sentences input) ("") st1

/-- The kernel state right after Kernel.__init__: the global session, the
bot predicate name = Nameless, and an empty brain. -/
def freshKernelState : KernelState :=
  { sessions := [(("_global"), newSession)],
    botPredicates := [(("name"), ("Nameless"))],
    brain := newMgr }

/-! ## Parser condition/li validation (core_aiml/aiml_parser.py) -/

/-- The li branch of AimlHandler._validate_elem_start (aiml_parser.py lines
539-574) for an li opening directly inside a non-block-style condition:
given the parent condition's attributes, the li's attributes and whether an
attribute-less default li was already seen (the top of
found_default_li_stack), return the updated default flag, or none when the
source raises AimlParserError.  A single-predicate parent (truthy name
attribute) admits exactly the empty attribute set (the default item, at most
once) or exactly one attribute named value; a multi-predicate parent (no
attributes at all) admits the empty set or exactly a truthy name and a
truthy value; a parent with attributes but no truthy name falls through both
tests and is not validated further. -/
def validateLiStart (parentAttrs liAttrs : List (String × String))
    (foundDefault : Bool) : Option Bool :=
  if truthy (alookup ("name") parentAttrs) then
    if liAttrs.length = 0 then
      (if foundDefault then none else some true)
    else if liAttrs.length = 1 ∧ (alookup ("value") liAttrs).isSome then
      some foundDefault
    else none
  else if parentAttrs.length = 0 then
    if liAttrs.length = 0 then
      (if foundDefault then none else some true)
    else if liAttrs.length = 2 ∧ truthy (alookup ("value") liAttrs) = true ∧
        truthy (alookup ("name") liAttrs) = true then
      some foundDefault
    else none
  else some foundDefault

/-- Parse state that matters while the li children of one condition open:
the default-li flag, the document error counter, and the
skip-current-category flag. -/
structure LiParseState where
  foundDefault : Bool
  numParseErrors : Nat
  skipCategory : Bool
deriving DecidableEq, Repr

/-- One li start-element event inside a condition, through the error
handling of AimlHandler.startElement (aiml_parser.py lines 118-141): events
are ignored while the category is being skipped; an AimlParserError
increments the document error counter and makes the parser skip the rest of
the enclosing category. -/
def liStartEvent (parentAttrs : List (String × String)) (ps : LiParseState)
    (liAttrs : List (String × String)) : LiParseState :=
  if ps.skipCategory then ps
  else
    match validateLiStart parentAttrs liAttrs ps.foundDefault with
    | some fd => { ps with foundDefault := fd }
    | none =>
      { ps with numParseErrors := ps.numParseErrors + 1, skipCategory := true }

/-- Folding the li start events of one condition element from the initial
state (no default seen yet, no errors, not skipping). -/
def runLiEvents (parentAttrs : List (String × String))
    (events : List (List (String × String))) : LiParseState :=
  events.foldl (liStartEvent parentAttrs)
    { foundDefault := false, numParseErrors := 0, skipCategory := false }

/-! ## Scenario constants and statement helpers -/

/-- The linear trie that a single category inserts into an empty root. -/
def linTrie (t : τ) : List PatKey → Trie τ
  | [] => Trie.mk [] (some t)
  | k :: ks => Trie.mk [(k, linTrie t ks)] none

/-- A plain literal word: not one of the tokens that PatternMgr.add maps to
a special trie key. -/
def plainWord (w : String) : Bool :=
  !(w == ("_")) && !(w == ("*")) && !(w == ("BOT_NAME"))

/-- The response component of an evaluation outcome. -/
def respOf (r : Except PyErr (String × KernelState)) : Except PyErr String :=
  match r with
  | Except.error err => Except.error err
  | Except.ok (s, _) => Except.ok s

/-- The input-stack predicate of a session. -/
def stackOf (st : KernelState) (sid : String) : PyVal :=
  getPredicate st sid inputStackKey

/-- How an interpreter step may change the input-stack predicate: unchanged,
clobbered to a string by a set element, or re-created as the empty list when
a predicate write builds a fresh session. -/
def StackEvolved (sid : String) (st st2 : KernelState) : Prop :=
  stackOf st2 sid = stackOf st sid ∨ (∃ s, stackOf st2 sid = PyVal.str s) ∨
    stackOf st2 sid = PyVal.lst []

/-- Sequential top-level Kernel.respond calls, stopping at the first
uncaught exception. -/
def respondSeq (ctx : EvalCtx) (fuel : Nat) (sid : String) :
    List String → KernelState → Except PyErr KernelState
  | [], st => Except.ok st
  | s :: rest, st =>
    match respond ctx fuel st sid s with
    | Except.error err => Except.error err
    | Except.ok (_, st1) => respondSeq ctx fuel sid rest st1

/-- A kernel state whose global session carries the given input and output
histories, an empty input stack and an empty brain. -/
def histState (h oh : List String) : KernelState :=
  { sessions := [(("_global"),
      [(inputHistoryKey, PyVal.lst h), (outputHistoryKey, PyVal.lst oh),
       (inputStackKey, PyVal.lst [])])],
    botPredicates := [(("name"), ("Nameless"))],
    brain := newMgr }

/-- An evaluation context with the identity word substituter and a
single-sentence splitter. -/
def idCtx : EvalCtx := { normalSub := fun s => s, sentences := fun s => [s] }

/-- Trie with a literal, an UNDERSCORE and a STAR sibling at the root, each
leading to a distinct template (1, 2 and 3). -/
def mgrA : PatternMgr Nat :=
  ((newMgr.add [("HELLO")] [] [] 1).add [("_")] [] [] 2).add [("*")] [] [] 3

/-- Trie with a literal and a STAR sibling at the root, no UNDERSCORE. -/
def mgrB : PatternMgr Nat :=
  (newMgr.add [("HELLO")] [] [] 1).add [("*")] [] [] 3

/-- A template whose only element is a bot element without the required
name attribute. -/
def botTemplate : Elem := Elem.tag ("template") [] [Elem.tag ("bot") [] []]

/-- A brain holding one category: pattern HI with botTemplate. -/
def botBrain : PatternMgr Elem := newMgr.add [("HI")] [] [] botTemplate

/-- A fresh kernel whose brain is botBrain. -/
def botState : KernelState := { freshKernelState with brain := botBrain }

/-- A block-style condition carrying name gender and an empty value, with a
text child. -/
def condElem : Elem :=
  Elem.tag ("condition") [(("name"), ("gender")), (("value"), (""))]
    [Elem.text ("preserve") ("yes")]

/-- A template that re-submits the literal input HELLO through srai. -/
def sraiTemplate : Elem :=
  Elem.tag ("template") [] [Elem.tag ("srai") [] [Elem.text ("preserve") ("HELLO")]]

/-- A brain holding one category: pattern HELLO with sraiTemplate — the
template issues an srai back to its own pattern. -/
def sraiBrain : PatternMgr Elem := newMgr.add [("HELLO")] [] [] sraiTemplate

/-- A fresh kernel whose brain is sraiBrain. -/
def sraiState : KernelState := { freshKernelState with brain := sraiBrain }

/-- A kernel state whose global session has 101 entries on the input
stack. -/
def deepState : KernelState :=
  setPredicate freshKernelState ("_global") inputStackKey
    (PyVal.lst (List.replicate 101 ("X")))

/-! ## Theorems: helper lemmas -/

/-- Fuel irrelevance: any two fuel values strictly above the termination
measure give the same result.  Consequently patMatch satisfies exactly the
recursion equations of the source (patMatch_nil_eq, patMatch_cons_eq). -/
theorem patMatchF_mono (bn : String) (n : Nat) :
    ∀ (words thatWords topicWords : List String) (f g : Nat) (root : Trie τ),
      matchMeasure words thatWords topicWords ≤ n →
      matchMeasure words thatWords topicWords < f →
      matchMeasure words thatWords topicWords < g →
      patMatchF bn f words thatWords topicWords root =
        patMatchF bn g words thatWords topicWords root := by
  induction n using Nat.strong_induction_on with
  | _ n ih =>
    intro words thatWords topicWords f g root hn hf hg
    cases f with
    | zero => omega
    | succ f2 =>
      cases g with
      | zero => omega
      | succ g2 =>
        cases words with
        | nil =>
          simp only [patMatchF]
          cases thatWords with
          | cons t ts =>
            cases alookup PatKey.thatMark root.children with
            | none => rfl
            | some tn =>
              dsimp only
              rw [ih (matchMeasure (t :: ts) [] topicWords)
                (by simp [matchMeasure, pend] at hn ⊢; omega)
                (t :: ts) [] topicWords f2 g2 tn le_rfl
                (by simp [matchMeasure, pend] at hf ⊢; omega)
                (by simp [matchMeasure, pend] at hg ⊢; omega)]
          | nil =>
            cases topicWords with
            | cons p ps =>
              cases alookup PatKey.topicMark root.children with
              | none => rfl
              | some tn =>
                dsimp only
                rw [ih (matchMeasure (p :: ps) [] [])
                  (by simp [matchMeasure, pend] at hn ⊢; omega)
                  (p :: ps) [] [] f2 g2 tn le_rfl
                  (by simp [matchMeasure, pend] at hf ⊢; omega)
                  (by simp [matchMeasure, pend] at hg ⊢; omega)]
            | nil => rfl
        | cons first suffix =>
          have e1 : ∀ (child : Trie τ) (j : Nat),
              patMatchF bn f2 (suffix.drop j) thatWords topicWords child =
                patMatchF bn g2 (suffix.drop j) thatWords topicWords child := by
            intro child j
            exact ih (matchMeasure (suffix.drop j) thatWords topicWords)
              (by simp [matchMeasure, List.length_drop] at hn ⊢; omega)
              (suffix.drop j) thatWords topicWords f2 g2 child le_rfl
              (by simp [matchMeasure, List.length_drop] at hf ⊢; omega)
              (by simp [matchMeasure, List.length_drop] at hg ⊢; omega)
          have e2 : ∀ (child : Trie τ),
              patMatchF bn f2 suffix thatWords topicWords child =
                patMatchF bn g2 suffix thatWords topicWords child := by
            intro child
            exact ih (matchMeasure suffix thatWords topicWords)
              (by simp [matchMeasure] at hn ⊢; omega)
              suffix thatWords topicWords f2 g2 child le_rfl
              (by simp [matchMeasure] at hf ⊢; omega)
              (by simp [matchMeasure] at hg ⊢; omega)
          simp only [patMatchF, e1, e2]

theorem findSome_map_comm {ι α β2 : Type} (l : List ι) (f : ι → Option α) (g : α → β2) :
    l.findSome? (fun x => (f x).map g) = (l.findSome? f).map g := by
  induction l with
  | nil => simp
  | cons a l ih =>
    simp only [List.findSome?_cons]
    cases f a <;> simp [ih]

theorem findSome_range_drop_eq_wildSearch (bn : String)
    (thatWords topicWords : List String) (child : Trie τ) (suffix : List String) :
    (List.range (suffix.length + 1)).findSome?
        (fun j => patMatch bn (suffix.drop j) thatWords topicWords child) =
      wildSearch bn thatWords topicWords child suffix := by
  induction suffix with
  | nil =>
    have h1 : List.range (List.length ([] : List String) + 1) = [0] := rfl
    simp only [wildSearch, h1, List.findSome?_cons, List.findSome?_nil, List.drop_nil]
    cases patMatch bn [] thatWords topicWords child <;> rfl
  | cons w rest ih =>
    rw [wildSearch]
    rw [List.range_succ_eq_map, List.findSome?_cons]
    cases h : patMatch bn ((w :: rest).drop 0) thatWords topicWords child with
    | some r =>
      simp only [List.drop_zero] at h
      simp [h, Option.orElse]
    | none =>
      simp only [List.drop_zero] at h
      rw [List.findSome?_map]
      simp only [Function.comp_def, List.drop_succ_cons, List.length_cons]
      rw [ih]
      simp [h, Option.orElse]

/-- Source recursion equation of PatternMgr._match for an exhausted word
list: try the pending that sequence, then the pending topic sequence, then
fall back to the template stored at this node. -/
theorem patMatch_nil_eq (bn : String) (thatWords topicWords : List String)
    (root : Trie τ) :
    patMatch bn [] thatWords topicWords root =
      (match ctxStep bn thatWords topicWords root with
       | some r => some r
       | none => root.template.map (fun t => ([], t))) := by
  cases thatWords with
  | cons t ts =>
    have e : ∀ (tn : Trie τ),
        patMatchF bn (matchMeasure [] (t :: ts) topicWords) (t :: ts) [] topicWords tn =
          patMatch bn (t :: ts) [] topicWords tn := fun tn =>
      patMatchF_mono bn (matchMeasure (t :: ts) [] topicWords)
        (t :: ts) [] topicWords _ _ tn le_rfl
        (by simp [matchMeasure, pend] <;> omega) (Nat.lt_succ_self _)
    conv_lhs => rw [patMatch]; rw [patMatchF]
    simp only [e]
    simp only [ctxStep]
  | nil =>
    cases topicWords with
    | cons p ps =>
      have e : ∀ (tn : Trie τ),
          patMatchF bn (matchMeasure [] [] (p :: ps)) (p :: ps) [] [] tn =
            patMatch bn (p :: ps) [] [] tn := fun tn =>
        patMatchF_mono bn (matchMeasure (p :: ps) [] [])
          (p :: ps) [] [] _ _ tn le_rfl
          (by simp [matchMeasure, pend] <;> omega) (Nat.lt_succ_self _)
      conv_lhs => rw [patMatch]; rw [patMatchF]
      simp only [e]
      simp only [ctxStep]
    | nil =>
      conv_lhs => rw [patMatch]; rw [patMatchF]
      simp only [ctxStep]

/-- Source recursion equation of PatternMgr._match at a non-empty word
position, decomposed into the four candidate branches in source order —
UNDERSCORE wildcard, literal word, BOT NAME placeholder, STAR wildcard —
each returned on first success. -/
theorem patMatch_cons_eq (bn first : String)
    (suffix thatWords topicWords : List String) (root : Trie τ) :
    patMatch bn (first :: suffix) thatWords topicWords root =
      (underBranch bn root first suffix thatWords topicWords).orElse (fun _ =>
        (wordBranch bn root first suffix thatWords topicWords).orElse (fun _ =>
          (botBranch bn root first suffix thatWords topicWords).orElse (fun _ =>
            starBranch bn root first suffix thatWords topicWords))) := by
  have e1 : ∀ (child : Trie τ) (j : Nat),
      patMatchF bn (matchMeasure (first :: suffix) thatWords topicWords)
          (suffix.drop j) thatWords topicWords child =
        patMatch bn (suffix.drop j) thatWords topicWords child := by
    intro child j
    exact patMatchF_mono bn (matchMeasure (suffix.drop j) thatWords topicWords)
      (suffix.drop j) thatWords topicWords _ _ child le_rfl
      (by simp [matchMeasure, List.length_drop] <;> omega) (Nat.lt_succ_self _)
  have e2 : ∀ (child : Trie τ),
      patMatchF bn (matchMeasure (first :: suffix) thatWords topicWords)
          suffix thatWords topicWords child =
        patMatch bn suffix thatWords topicWords child := by
    intro child
    exact patMatchF_mono bn (matchMeasure suffix thatWords topicWords)
      suffix thatWords topicWords _ _ child le_rfl
      (by simp [matchMeasure] <;> omega) (Nat.lt_succ_self _)
  rw [patMatch]
  simp only [patMatchF, e1, e2]
  unfold underBranch wordBranch botBranch starBranch
  cases alookup PatKey.underscore root.children <;>
    cases alookup PatKey.star root.children
  all_goals dsimp only
  all_goals (try rw [findSome_map_comm, findSome_range_drop_eq_wildSearch])
  all_goals (try rw [findSome_map_comm, findSome_range_drop_eq_wildSearch])
  all_goals rfl

theorem alookup_aset_self [DecidableEq κ] (k : κ) (v : β) (l : List (κ × β)) :
    alookup k (aset k v l) = some v := by
  induction l with
  | nil => simp [alookup, aset]
  | cons p rest ih =>
    by_cases h : p.1 = k
    · simp [alookup, aset, h]
    · simp [alookup, aset, h, ih]

theorem alookup_aset_ne [DecidableEq κ] (k k2 : κ) (v : β) (l : List (κ × β))
    (h : k2 ≠ k) : alookup k2 (aset k v l) = alookup k2 l := by
  induction l with
  | nil => simp [alookup, aset, Ne.symm h]
  | cons p rest ih =>
    by_cases h1 : p.1 = k
    · subst h1
      simp [alookup, aset, Ne.symm h]
    · simp [alookup, aset, h1, ih]

theorem aset_aset [DecidableEq κ] (k : κ) (v1 v2 : β) (l : List (κ × β)) :
    aset k v2 (aset k v1 l) = aset k v2 l := by
  induction l with
  | nil => simp [aset]
  | cons p rest ih =>
    by_cases h : p.1 = k
    · simp [aset, h]
    · simp [aset, h, ih]

/-! ## Theorems: claim C1 -/

/-- C1.  Kernel.learn can never store a category through PatternMgr.add:
the call site passes four positional arguments where the add definition
declares two, so Python raises a TypeError on the first category and no
template is added.  For every non-empty parsed category list the
category-storing loop of learn aborts with a TypeError. -/
theorem c1_learn_never_stores (m : PatternMgr τ)
    (cats : List ((List String × List String × List String) × τ))
    (h : cats ≠ []) :
    learnStoreCategories m cats = Except.error PyErr.typeError := by
  cases cats with
  | nil => exact absurd rfl h
  | cons c rest =>
    obtain ⟨key, tem⟩ := c
    simp [learnStoreCategories, learnAddArgCount, addParamCount]

/-- Witness for c1_learn_never_stores at a concrete one-category list. -/
theorem c1_learn_never_stores_witness :
    learnStoreCategories (newMgr : PatternMgr Nat)
        [(([("A")], [], []), 5)] = Except.error PyErr.typeError :=
  c1_learn_never_stores newMgr [(([("A")], [], []), 5)] (by simp)

/-! ## Theorems: claim C3 -/

/-- C3.  At every position during the recursive match the candidates are
tried in exactly this order, returning on the first success: (1) the
single-word-wildcard (UNDERSCORE) child with consumptions of one word plus
0..N further words, shortest first (the second conjunct shows the
consumption search tries the shortest consumption — recursing on the
whole remaining suffix — before growing it); (2) the exact literal child;
(3) the bot-name placeholder child when the current word equals the bot
name; (4) the multi-word-wildcard (STAR) child with the same search. -/
theorem c3_match_candidate_order (bn first w : String)
    (suffix rest thatWords topicWords : List String) (root child : Trie τ) :
    (patMatch bn (first :: suffix) thatWords topicWords root =
      (underBranch bn root first suffix thatWords topicWords).orElse (fun _ =>
        (wordBranch bn root first suffix thatWords topicWords).orElse (fun _ =>
          (botBranch bn root first suffix thatWords topicWords).orElse (fun _ =>
            starBranch bn root first suffix thatWords topicWords)))) ∧
    (wildSearch bn thatWords topicWords child (w :: rest) =
      (patMatch bn (w :: rest) thatWords topicWords child).orElse
        (fun _ => wildSearch bn thatWords topicWords child rest)) :=
  ⟨patMatch_cons_eq bn first suffix thatWords topicWords root, rfl⟩

/-! ## Theorems: claim C2 -/

/-- Counterexample to C2 as stated: in a trie whose root has a matching
literal child (template 1), an UNDERSCORE child (template 2) and a STAR
child (template 3), match does not return the literal's template — the
single-word wildcard wins over the literal. -/
theorem c2_literal_wins_counterexample :
    mgrA.matchTokens [("HELLO")] [] [] = some 2 ∧
      mgrA.matchTokens [("HELLO")] [] [] ≠ some 1 := by
  constructor
  · rfl
  · decide

/-- C2 amended.  Sibling-branch precedence of the matcher: the single-word
(UNDERSCORE) wildcard branch wins whenever it succeeds — including over a
matching literal; the literal branch wins whenever the UNDERSCORE branch
fails; and when UNDERSCORE, literal and bot-name branches all fail the
result is the multi-word (STAR) wildcard branch, so the single-word
wildcard is attempted before the multi-word wildcard. -/
theorem c2_wildcard_over_literal (bn first : String)
    (suffix thatWords topicWords : List String) (root : Trie τ) :
    (∀ r, underBranch bn root first suffix thatWords topicWords = some r →
      patMatch bn (first :: suffix) thatWords topicWords root = some r) ∧
    (underBranch bn root first suffix thatWords topicWords = none →
      ∀ r, wordBranch bn root first suffix thatWords topicWords = some r →
        patMatch bn (first :: suffix) thatWords topicWords root = some r) ∧
    (underBranch bn root first suffix thatWords topicWords = none →
      wordBranch bn root first suffix thatWords topicWords = none →
      botBranch bn root first suffix thatWords topicWords = none →
      patMatch bn (first :: suffix) thatWords topicWords root =
        starBranch bn root first suffix thatWords topicWords) := by
  refine ⟨?_, ?_, ?_⟩
  · intro r h
    rw [patMatch_cons_eq, h]
    rfl
  · intro hu r h
    rw [patMatch_cons_eq, hu, h]
    rfl
  · intro hu hw hb
    rw [patMatch_cons_eq, hu, hw, hb]
    rfl

/-- Witness for c2_wildcard_over_literal: on mgrA the UNDERSCORE branch
succeeds and decides the match; on mgrB (no UNDERSCORE child) the literal
branch decides it. -/
theorem c2_wildcard_over_literal_witness :
    patMatch ("Nameless") [("HELLO")] [dummyThat] [dummyTopic] mgrA.root =
        some ([PatKey.underscore], 2) ∧
      patMatch ("Nameless") [("HELLO")] [dummyThat] [dummyTopic] mgrB.root =
        some ([PatKey.word ("HELLO")], 1) :=
  ⟨(c2_wildcard_over_literal ("Nameless") ("HELLO") [] [dummyThat] [dummyTopic]
      mgrA.root).1 ([PatKey.underscore], 2) (by decide),
   (c2_wildcard_over_literal ("Nameless") ("HELLO") [] [dummyThat] [dummyTopic]
      mgrB.root).2.1 (by decide) ([PatKey.word ("HELLO")], 1) (by decide)⟩

/-! ## Theorems: claim C8 -/

/-- Counterexample to C8 as stated: a single-predicate condition whose
children open as a valued li, then an attribute-less default li, then
another valued li — the default li is present but not the last child, yet
the parser accepts the whole sequence with zero errors and without skipping
the category (only the default flag is recorded). -/
theorem c8_default_li_position_counterexample :
    runLiEvents [(("name"), ("gender"))]
        [[(("value"), ("A"))], [], [(("value"), ("B"))]] =
      { foundDefault := true, numParseErrors := 0, skipCategory := false } := by
  decide

/-- C8 amended.  The parser reports a structural error — the error counter
is incremented and the enclosing category is skipped — for an li child
whose attribute set does not match the one implied by the parent
condition's attributes (single-predicate parent: exactly one value
attribute; multi-predicate parent: exactly a truthy name and a truthy
value), and for a second attribute-less default li; the position of the
default li is not validated at parse time. -/
theorem c8_li_validation (parentAttrs liAttrs : List (String × String))
    (ps : LiParseState) (hskip : ps.skipCategory = false) :
    (truthy (alookup ("name") parentAttrs) = true →
      liAttrs.length ≠ 0 →
      ¬(liAttrs.length = 1 ∧ (alookup ("value") liAttrs).isSome) →
      liStartEvent parentAttrs ps liAttrs =
        { ps with numParseErrors := ps.numParseErrors + 1, skipCategory := true }) ∧
    (truthy (alookup ("name") parentAttrs) = false →
      parentAttrs.length = 0 →
      liAttrs.length ≠ 0 →
      ¬(liAttrs.length = 2 ∧ truthy (alookup ("value") liAttrs) = true ∧
          truthy (alookup ("name") liAttrs) = true) →
      liStartEvent parentAttrs ps liAttrs =
        { ps with numParseErrors := ps.numParseErrors + 1, skipCategory := true }) ∧
    ((truthy (alookup ("name") parentAttrs) = true ∨ parentAttrs.length = 0) →
      ps.foundDefault = true →
      liAttrs.length = 0 →
      liStartEvent parentAttrs ps liAttrs =
        { ps with numParseErrors := ps.numParseErrors + 1, skipCategory := true }) := by
  refine ⟨?_, ?_, ?_⟩
  · intro hname hlen hshape
    simp [liStartEvent, hskip, validateLiStart, hname, hlen, hshape]
  · intro hname hpar hlen hshape
    simp [liStartEvent, hskip, validateLiStart, hname, hpar, hlen, hshape]
  · intro hpar hfound hlen
    cases hpar with
    | inl hname => simp [liStartEvent, hskip, validateLiStart, hname, hlen, hfound]
    | inr hzero =>
      cases hname : truthy (alookup ("name") parentAttrs) with
      | true => simp [liStartEvent, hskip, validateLiStart, hname, hlen, hfound]
      | false => simp [liStartEvent, hskip, validateLiStart, hname, hzero, hlen, hfound]

/-- Witness for c8_li_validation: a concrete invalid li (a name attribute
inside a single-predicate condition) is reported and makes the parser skip
the category. -/
theorem c8_li_validation_witness :
    liStartEvent [(("name"), ("gender"))]
        { foundDefault := false, numParseErrors := 0, skipCategory := false }
        [(("name"), ("x"))] =
      { foundDefault := false, numParseErrors := 1, skipCategory := true } :=
  (c8_li_validation [(("name"), ("gender"))] [(("name"), ("x"))]
      { foundDefault := false, numParseErrors := 0, skipCategory := false }
      rfl).1 (by decide) (by decide) (by decide)

/-! ## Theorems: claim C7 -/

theorem addPath_empty (t : τ) :
    ∀ ks : List PatKey, addPath (emptyTrie : Trie τ) t ks = (linTrie t ks, true) := by
  intro ks
  induction ks with
  | nil => rfl
  | cons k rest ih =>
    simp only [emptyTrie] at ih
    simp [addPath, emptyTrie, alookup, aset, Trie.children, Trie.template, linTrie, ih]

theorem patWordKey_plain (w : String) (h : plainWord w = true) :
    patWordKey w = PatKey.word w := by
  simp only [plainWord, Bool.and_eq_true, Bool.not_eq_true', beq_eq_false_iff_ne] at h
  obtain ⟨⟨h1, h2⟩, h3⟩ := h
  simp [patWordKey, h1, h2, h3]

theorem ctxWordKey_plain (w : String) (h : plainWord w = true) :
    ctxWordKey w = PatKey.word w := by
  simp only [plainWord, Bool.and_eq_true, Bool.not_eq_true', beq_eq_false_iff_ne] at h
  obtain ⟨⟨h1, h2⟩, h3⟩ := h
  simp [ctxWordKey, h1, h2]

theorem map_patWordKey_plain (ws : List String) (h : ∀ w ∈ ws, plainWord w = true) :
    ws.map patWordKey = ws.map PatKey.word := by
  induction ws with
  | nil => rfl
  | cons a rest ih =>
    simp only [List.map_cons, List.cons.injEq]
    exact ⟨patWordKey_plain a (h a (by simp)),
      ih (fun w hw => h w (by simp [hw]))⟩

theorem map_ctxWordKey_plain (ws : List String) (h : ∀ w ∈ ws, plainWord w = true) :
    ws.map ctxWordKey = ws.map PatKey.word := by
  induction ws with
  | nil => rfl
  | cons a rest ih =>
    simp only [List.map_cons, List.cons.injEq]
    exact ⟨ctxWordKey_plain a (h a (by simp)),
      ih (fun w hw => h w (by simp [hw]))⟩

/-- Matching at a template leaf succeeds whatever that/topic words remain:
the pending context lookups fail with a KeyError caught by the source, and
the template at the node is returned. -/
theorem patMatch_leaf (bn : String) (t : τ) (tW pW : List String) :
    patMatch bn [] tW pW (Trie.mk [] (some t)) = some ([], t) := by
  rw [patMatch_nil_eq]
  cases tW <;> cases pW <;>
    simp [ctxStep, alookup, Trie.children, Trie.template]

/-- Walking a linear trie along its own literal words reduces the match to
the match at the end of those words. -/
theorem patMatch_lin_words (bn : String) (t : τ) :
    ∀ (ws tW pW : List String) (tl p0 : List PatKey),
      (∀ w ∈ ws, plainWord w = true) →
      patMatch bn [] tW pW (linTrie t tl) = some (p0, t) →
      patMatch bn ws tW pW (linTrie t (ws.map PatKey.word ++ tl)) =
        some (ws.map PatKey.word ++ p0, t) := by
  intro ws
  induction ws with
  | nil =>
    intro tW pW tl p0 hplain hbase
    simpa using hbase
  | cons w rest ih =>
    intro tW pW tl p0 hplain hbase
    have hih := ih tW pW tl p0 (fun x hx => hplain x (List.mem_cons_of_mem w hx)) hbase
    have hnode : linTrie t ((w :: rest).map PatKey.word ++ tl) =
        Trie.mk [(PatKey.word w, linTrie t (rest.map PatKey.word ++ tl))] none := rfl
    rw [hnode, patMatch_cons_eq]
    simp [underBranch, wordBranch, alookup, Trie.children, hih, Option.orElse]

/-- Re-inserting along the same key path overwrites the template at the
final node, reports the TEMPLATE entry as already present, and leaves the
trie equal to a single insertion of the new template. -/
theorem addPath_twice (t1 t2 : τ) :
    ∀ (ks : List PatKey) (n : Trie τ),
      addPath (addPath n t1 ks).1 t2 ks = ((addPath n t2 ks).1, false) := by
  intro ks
  induction ks with
  | nil =>
    intro n
    simp [addPath, Trie.children, Trie.template]
  | cons k rest ih =>
    intro n
    simp [addPath, Trie.children, Trie.template, alookup_aset_self, aset_aset, ih]

/-- C7.  Round-trip and overwrite behavior of the pattern index: a category
of plain literal words inserted into a fresh manager is found again by
matching its own normalized token sequences, returning exactly the inserted
template (a non-empty topic needs a non-empty that part, since the matcher
visits the TOPIC subtree only through an exhausted that sequence); and
re-inserting any identical key overwrites the stored template without
changing num_templates — the counter increments only when the final trie
node had no template leaf yet. -/
theorem c7_roundtrip_overwrite (P T Top : List String) (t t2 : τ)
    (m : PatternMgr τ) (hP : P ≠ [])
    (hPp : ∀ w ∈ P, plainWord w = true)
    (hTp : ∀ w ∈ T, plainWord w = true)
    (hTopp : ∀ w ∈ Top, plainWord w = true)
    (hTT : Top ≠ [] → T ≠ []) :
    ((newMgr.add P T Top t).matchTokens P T Top = some t) ∧
    ((m.add P T Top t).add P T Top t2).templateCount =
      (m.add P T Top t).templateCount ∧
    ((m.add P T Top t).add P T Top t2).root = (m.add P T Top t2).root := by
  refine ⟨?_, ?_, ?_⟩
  case refine_2 =>
    simp [PatternMgr.add, addPath_twice]
  case refine_3 =>
    simp [PatternMgr.add, addPath_twice]
  case refine_1 =>
    cases P with
    | nil => exact absurd rfl hP
    | cons p ps =>
      have hroot : (newMgr.add (p :: ps) T Top t).root =
          linTrie t (categoryKeys (p :: ps) T Top) := by
        simp [PatternMgr.add, newMgr, addPath_empty]
      have hbn : (newMgr.add (p :: ps) T Top t).botName = ("Nameless") := rfl
      cases T with
      | nil =>
        have hTop : Top = [] := by
          by_contra hne
          exact (hTT hne) rfl
        subst hTop
        have hkeys : categoryKeys (p :: ps) [] [] = (p :: ps).map PatKey.word := by
          simp [categoryKeys, map_patWordKey_plain (p :: ps) hPp]
        have hm := patMatch_lin_words ("Nameless") t (p :: ps) [dummyThat]
          [dummyTopic] [] [] hPp (patMatch_leaf ("Nameless") t [dummyThat] [dummyTopic])
        simp only [PatternMgr.matchTokens, hroot, hbn, hkeys]
        simp only [List.append_nil, List.map_cons, List.cons_append] at hm
        simp [hm]
      | cons a as =>
        cases Top with
        | nil =>
          have hkeys : categoryKeys (p :: ps) (a :: as) [] =
              (p :: ps).map PatKey.word ++
                (PatKey.thatMark :: (a :: as).map PatKey.word) := by
            simp [categoryKeys, map_patWordKey_plain (p :: ps) hPp,
              map_ctxWordKey_plain (a :: as) hTp]
          have hinner := patMatch_lin_words ("Nameless") t (a :: as) [] [dummyTopic]
            [] [] hTp (patMatch_leaf ("Nameless") t [] [dummyTopic])
          simp only [List.append_nil] at hinner
          have hbase : patMatch ("Nameless") [] (a :: as) [dummyTopic]
              (linTrie t (PatKey.thatMark :: (a :: as).map PatKey.word)) =
              some (PatKey.thatMark :: (a :: as).map PatKey.word, t) := by
            rw [patMatch_nil_eq]
            simp only [ctxStep, linTrie, Trie.children, alookup]
            simp only [linTrie] at hinner
            simp [hinner]
          have hm := patMatch_lin_words ("Nameless") t (p :: ps) (a :: as)
            [dummyTopic] (PatKey.thatMark :: (a :: as).map PatKey.word)
            (PatKey.thatMark :: (a :: as).map PatKey.word) hPp hbase
          simp only [PatternMgr.matchTokens, hroot, hbn, hkeys]
          simp only [List.map_cons, List.cons_append, List.append_nil] at hm
          simp [hm]
        | cons b bs =>
          have hkeys : categoryKeys (p :: ps) (a :: as) (b :: bs) =
              (p :: ps).map PatKey.word ++
                (PatKey.thatMark :: ((a :: as).map PatKey.word ++
                  PatKey.topicMark :: (b :: bs).map PatKey.word)) := by
            simp [categoryKeys, map_patWordKey_plain (p :: ps) hPp,
              map_ctxWordKey_plain (a :: as) hTp,
              map_ctxWordKey_plain (b :: bs) hTopp]
          have hinner2 := patMatch_lin_words ("Nameless") t (b :: bs) [] []
            [] [] hTopp (patMatch_leaf ("Nameless") t [] [])
          simp only [List.append_nil] at hinner2
          have hbase2 : patMatch ("Nameless") [] [] (b :: bs)
              (linTrie t (PatKey.topicMark :: (b :: bs).map PatKey.word)) =
              some (PatKey.topicMark :: (b :: bs).map PatKey.word, t) := by
            rw [patMatch_nil_eq]
            simp only [ctxStep, linTrie, Trie.children, alookup]
            simp only [linTrie] at hinner2
            simp [hinner2]
          have hinner1 := patMatch_lin_words ("Nameless") t (a :: as) [] (b :: bs)
            (PatKey.topicMark :: (b :: bs).map PatKey.word)
            (PatKey.topicMark :: (b :: bs).map PatKey.word) hTp hbase2
          have hbase1 : patMatch ("Nameless") [] (a :: as) (b :: bs)
              (linTrie t (PatKey.thatMark :: ((a :: as).map PatKey.word ++
                PatKey.topicMark :: (b :: bs).map PatKey.word))) =
              some (PatKey.thatMark :: ((a :: as).map PatKey.word ++
                PatKey.topicMark :: (b :: bs).map PatKey.word), t) := by
            rw [patMatch_nil_eq]
            simp only [ctxStep, linTrie, Trie.children, alookup]
            simp only [linTrie, List.append_eq, List.map_cons, List.cons_append] at hinner1
            simp [hinner1]
          have hm := patMatch_lin_words ("Nameless") t (p :: ps) (a :: as)
            (b :: bs)
            (PatKey.thatMark :: ((a :: as).map PatKey.word ++
              PatKey.topicMark :: (b :: bs).map PatKey.word))
            (PatKey.thatMark :: ((a :: as).map PatKey.word ++
              PatKey.topicMark :: (b :: bs).map PatKey.word)) hPp hbase1
          simp only [PatternMgr.matchTokens, hroot, hbn, hkeys]
          simp only [List.map_cons, List.cons_append, List.append_nil] at hm
          simp [hm]

/-- Witness for c7_roundtrip_overwrite at a concrete two-word pattern with
that and topic parts. -/
theorem c7_roundtrip_overwrite_witness :
    ((newMgr.add [("HELLO"), ("THERE")] [("OK")] [("SPORTS")] (1 : Nat)).matchTokens
        [("HELLO"), ("THERE")] [("OK")] [("SPORTS")] = some 1) ∧
    (((newMgr.add [("HELLO"), ("THERE")] [("OK")] [("SPORTS")] (1 : Nat)).add
        [("HELLO"), ("THERE")] [("OK")] [("SPORTS")] 2).templateCount =
      (newMgr.add [("HELLO"), ("THERE")] [("OK")] [("SPORTS")] (1 : Nat)).templateCount) ∧
    (((newMgr.add [("HELLO"), ("THERE")] [("OK")] [("SPORTS")] (1 : Nat)).add
        [("HELLO"), ("THERE")] [("OK")] [("SPORTS")] 2).root =
      (newMgr.add [("HELLO"), ("THERE")] [("OK")] [("SPORTS")] (2 : Nat)).root) :=
  c7_roundtrip_overwrite [("HELLO"), ("THERE")] [("OK")] [("SPORTS")] 1 2 newMgr
    (by decide) (by decide) (by decide) (by decide) (fun _ => by decide)

/-! ## Theorems: claim C4 -/

/-- Counterexample to C4 as stated: a bot element with no name attribute
raises a KeyError inside Kernel._process_bot (elem[1] is subscripted without
a guard), and the exception propagates out of the handler and aborts the
whole respond call. -/
theorem c4_missing_attr_counterexample :
    processElement idCtx 5 freshKernelState ("_global") (Elem.tag ("bot") [] []) =
        Except.error PyErr.keyError ∧
      respOf (respond idCtx 50 botState ("_global") ("HI")) =
        Except.error PyErr.keyError :=
  ⟨rfl, rfl⟩

/-- C4 amended.  An unset predicate is recovered by substituting the empty
string (get_predicate catches the KeyError), but a missing required
attribute is not recovered: bot and get elements without a name attribute
raise a KeyError that propagates out of the element handler, and so does a
non-default li without a value attribute inside a single-predicate
condition (the handler re-raises it). -/
theorem c4_error_recovery (ctx : EvalCtx) (fuel : Nat) (st : KernelState)
    (sid name : String) (attrs : List (String × String)) (cs : List Elem)
    (n : String) (lastLi li : Elem) (rest : List Elem) :
    ((alookup sid st.sessions).bind (fun sess => alookup name sess) = none →
      getPredicate st sid name = PyVal.str ("")) ∧
    (alookup ("name") attrs = none →
      processElement ctx (fuel + 1) st sid (Elem.tag ("bot") attrs cs) =
        Except.error PyErr.keyError) ∧
    (alookup ("name") attrs = none →
      processElement ctx (fuel + 1) st sid (Elem.tag ("get") attrs cs) =
        Except.error PyErr.keyError) ∧
    ((li.attrs.isEmpty && Elem.beq li lastLi) = false →
      alookup ("value") li.attrs = none →
      condScan ctx (fuel + 1) st sid (some n) lastLi (li :: rest) =
        Except.error PyErr.keyError) := by
  refine ⟨?_, ?_, ?_, ?_⟩
  · intro h
    unfold getPredicate
    cases hs : alookup sid st.sessions with
    | none => rfl
    | some sess =>
      rw [hs] at h
      simp only [Option.some_bind] at h
      simp [h]
  · intro h
    simp [processElement, evalK, h]
  · intro h
    simp [processElement, evalK, h]
  · intro hskip hval
    simp [condScan, evalK, hskip, hval]

/-- Witness for c4_error_recovery at concrete inputs: an unset predicate
reads as the empty string, and a bot element without a name attribute
raises. -/
theorem c4_error_recovery_witness :
    getPredicate freshKernelState ("_global") ("mood") = PyVal.str ("") ∧
      processElement idCtx 4 freshKernelState ("_global")
          (Elem.tag ("bot") [] []) = Except.error PyErr.keyError :=
  ⟨(c4_error_recovery idCtx 3 freshKernelState ("_global") ("mood") [] []
      ("g") (Elem.text ("d") ("x")) (Elem.text ("d") ("x")) []).1 (by decide),
   (c4_error_recovery idCtx 3 freshKernelState ("_global") ("mood") [] []
      ("g") (Elem.text ("d") ("x")) (Elem.text ("d") ("x")) []).2.1 rfl⟩

/-! ## Theorems: claim C9 -/

/-- Counterexample to C9 as stated: a condition carrying name gender and an
empty value attribute, evaluated in a state where the predicate gender is
unset (so its value, the empty string, equals the value attribute).  The
claim requires the children's concatenation (yes); the code tests Python
truthiness of the attributes, routes the element to the list-item branch,
finds no li children and returns the empty string with the state
untouched. -/
theorem c9_empty_value_counterexample :
    pyEqStr (getPredicate freshKernelState ("_global") ("gender")) ("") = true ∧
      processChildren idCtx 9 freshKernelState ("_global")
          [Elem.text ("preserve") ("yes")] = Except.ok (("yes"), freshKernelState) ∧
      processElement idCtx 9 freshKernelState ("_global") condElem =
        Except.ok (("", freshKernelState)) ∧
      ("yes" : String) ≠ ("") :=
  ⟨rfl, rfl, rfl, by decide⟩

/-- C9 amended.  For a condition element whose name and value attributes
are both present with non-empty values, the interpreter evaluates and
returns the concatenation of its children exactly when the session
predicate named by name currently equals value, and returns the empty
string (with the state unchanged) otherwise; an empty-valued attribute
instead routes the element to the list-item branches. -/
theorem c9_block_condition (ctx : EvalCtx) (fuel : Nat) (st : KernelState)
    (sid : String) (attrs : List (String × String)) (children : List Elem)
    (n v : String) (hn : alookup ("name") attrs = some n) (hn2 : n ≠ (""))
    (hv : alookup ("value") attrs = some v) (hv2 : v ≠ ("")) :
    processCondition ctx (fuel + 1) st sid attrs children =
      (if pyEqStr (getPredicate st sid n) v = true then
        processChildren ctx fuel st sid children
      else Except.ok (("", st))) := by
  simp only [processCondition, processChildren, evalK, hn, hv, Option.getD_some]
  split
  · split <;> rfl
  · next hcon => exact absurd ⟨hn2, hv2⟩ hcon

/-- Witness for c9_block_condition at a concrete matching condition. -/
theorem c9_block_condition_witness :
    processCondition idCtx 8 freshKernelState ("_global")
        [(("name"), ("topic")), (("value"), ("x"))] [Elem.text ("preserve") ("ok")] =
      (if pyEqStr (getPredicate freshKernelState ("_global") ("topic")) ("x") = true then
        processChildren idCtx 7 freshKernelState ("_global") [Elem.text ("preserve") ("ok")]
      else Except.ok (("", freshKernelState))) :=
  c9_block_condition idCtx 7 freshKernelState ("_global")
    [(("name"), ("topic")), (("value"), ("x"))] [Elem.text ("preserve") ("ok")]
    ("topic") ("x") rfl (by decide) rfl (by decide)

/-! ## Theorems: claim C5 -/

/-- C5.  The recursion guard of Kernel._respond: a call that finds the
session's input stack deeper than the maximum recursion depth returns the
empty string immediately with the state untouched; and the concrete kernel
whose only category HELLO answers with an srai back to HELLO terminates,
the whole respond call returning the empty string (the evaluation
completes — it does not exhaust the supplied fuel). -/
theorem c5_recursion_guard :
    (∀ (ctx : EvalCtx) (fuel : Nat) (st : KernelState) (sid input : String),
      pyLen (getPredicate st sid inputStackKey) > maxRecursionDepth →
      respondInner ctx (fuel + 1) st sid input = Except.ok (("", st))) ∧
      respOf (respond idCtx 900 sraiState ("_global") ("HELLO")) =
        Except.ok ("") := by
  constructor
  · intro ctx fuel st sid input h
    by_cases hi : input = ("")
    · simp [respondInner, evalK, hi]
    · simp [respondInner, evalK, hi, h]
  · rfl

/-- Witness for c5_recursion_guard on a state whose input stack already
holds 101 entries. -/
theorem c5_recursion_guard_witness :
    respondInner idCtx 5 deepState ("_global") ("HI") =
      Except.ok (("", deepState)) :=
  c5_recursion_guard.1 idCtx 4 deepState ("_global") ("HI") (by decide)

/-! ## Theorems: claim C6 -/

theorem patMatch_emptyTrie (bn : String) (ws tW pW : List String) :
    patMatch bn ws tW pW (Trie.mk [] (none : Option τ)) = none := by
  cases ws with
  | nil =>
    rw [patMatch_nil_eq]
    cases tW <;> cases pW <;>
      simp [ctxStep, alookup, Trie.children, Trie.template]
  | cons w wss =>
    rw [patMatch_cons_eq]
    simp [underBranch, wordBranch, botBranch, starBranch, alookup,
      Trie.children, Option.orElse]

/-- The empty brain matches nothing. -/
theorem matchS_newMgr_none (a b c : String) :
    (newMgr : PatternMgr Elem).matchS a b c = none := by
  unfold PatternMgr.matchS
  split
  · rfl
  · simp [newMgr, emptyTrie, patMatch_emptyTrie]

/-- One single-sentence respond call on the canonical history-state with an
empty brain: the sentence is appended to the input history (with the FIFO
trim), no category matches, the empty response is appended to the output
history, and the input stack returns to empty. -/
theorem respond_histState_step (ctx : EvalCtx) (h oh : List String) (s : String)
    (fuel : Nat) (hs : s ≠ ("")) (hsent : ctx.sentences s = [s]) :
    respond ctx (fuel + 1) (histState h oh) ("_global") s =
      Except.ok (("", histState (trimHistory (h ++ [s]))
        (trimHistory (oh ++ [("")])))) := by
  simp [respond, if_neg hs, hsent, addSession, histState, alookup,
    respondLoop, respondInner, evalK, getPredicate, setPredicate, aset,
    pyAppend, pyPop, pyLen, pyLastD, newSession, matchS_newMgr_none,
    inputHistoryKey, outputHistoryKey, inputStackKey, maxRecursionDepth]
  rfl

/-- Iterating single-sentence respond calls on the canonical state with an
empty brain: the input history is the left fold of the append-and-trim
step. -/
theorem respondSeq_histState (ctx : EvalCtx) (hsent : ∀ s, ctx.sentences s = [s]) :
    ∀ (inputs : List String) (h oh : List String) (fuel : Nat),
      (∀ s ∈ inputs, s ≠ ("")) →
      ∃ oh2, respondSeq ctx (fuel + 1) ("_global") inputs (histState h oh) =
        Except.ok (histState
          (inputs.foldl (fun acc s => trimHistory (acc ++ [s])) h) oh2) := by
  intro inputs
  induction inputs with
  | nil =>
    intro h oh fuel hne
    exact ⟨oh, rfl⟩
  | cons s rest ih =>
    intro h oh fuel hne
    have hstep := respond_histState_step ctx h oh s fuel (hne s (by simp)) (hsent s)
    obtain ⟨oh2, hrest⟩ := ih (trimHistory (h ++ [s])) (trimHistory (oh ++ [("")]))
      fuel (fun x hx => hne x (by simp [hx]))
    refine ⟨oh2, ?_⟩
    simp [respondSeq, hstep, hrest]

/-- C6.  Kernel.respond keeps the input history a bounded FIFO of capacity
10: each sentence is appended as newest and the oldest entries evicted
while the length exceeds 10, so after 11 sequential single-sentence respond
calls on a fresh kernel the input history holds exactly inputs 2 through 11
in order — length exactly 10. -/
theorem c6_history_fifo (ctx : EvalCtx) (hsent : ∀ s, ctx.sentences s = [s])
    (fuel : Nat) (a1 a2 a3 a4 a5 a6 a7 a8 a9 a10 a11 : String)
    (h1 : a1 ≠ ("")) (h2 : a2 ≠ ("")) (h3 : a3 ≠ ("")) (h4 : a4 ≠ (""))
    (h5 : a5 ≠ ("")) (h6 : a6 ≠ ("")) (h7 : a7 ≠ ("")) (h8 : a8 ≠ (""))
    (h9 : a9 ≠ ("")) (h10 : a10 ≠ ("")) (h11 : a11 ≠ ("")) :
    ∃ oh2,
      respondSeq ctx (fuel + 1) ("_global")
          [a1, a2, a3, a4, a5, a6, a7, a8, a9, a10, a11] freshKernelState =
        Except.ok (histState [a2, a3, a4, a5, a6, a7, a8, a9, a10, a11] oh2) ∧
      getPredicate (histState [a2, a3, a4, a5, a6, a7, a8, a9, a10, a11] oh2)
          ("_global") inputHistoryKey =
        PyVal.lst [a2, a3, a4, a5, a6, a7, a8, a9, a10, a11] ∧
      ([a2, a3, a4, a5, a6, a7, a8, a9, a10, a11] : List String).length = 10 := by
  have hfresh : freshKernelState = histState [] [] := rfl
  obtain ⟨oh2, hseq⟩ := respondSeq_histState ctx hsent
    [a1, a2, a3, a4, a5, a6, a7, a8, a9, a10, a11] [] [] fuel
    (by
      intro s hs
      simp only [List.mem_cons, List.not_mem_nil, or_false] at hs
      rcases hs with rfl | rfl | rfl | rfl | rfl | rfl | rfl | rfl | rfl | rfl | rfl <;>
        assumption)
  have hfold : ([a1, a2, a3, a4, a5, a6, a7, a8, a9, a10, a11] : List String).foldl
      (fun acc s => trimHistory (acc ++ [s])) [] =
      [a2, a3, a4, a5, a6, a7, a8, a9, a10, a11] := by
    simp [trimHistory, maxHistorySize]
  rw [hfresh]
  rw [hfold] at hseq
  exact ⟨oh2, hseq, rfl, rfl⟩

/-- Witness for c6_history_fifo at eleven concrete inputs. -/
theorem c6_history_fifo_witness :
    ∃ oh2,
      respondSeq idCtx 1 ("_global")
          [("I1"), ("I2"), ("I3"), ("I4"), ("I5"), ("I6"), ("I7"), ("I8"),
           ("I9"), ("I10"), ("I11")] freshKernelState =
        Except.ok (histState
          [("I2"), ("I3"), ("I4"), ("I5"), ("I6"), ("I7"), ("I8"), ("I9"),
           ("I10"), ("I11")] oh2) ∧
      getPredicate (histState
          [("I2"), ("I3"), ("I4"), ("I5"), ("I6"), ("I7"), ("I8"), ("I9"),
           ("I10"), ("I11")] oh2) ("_global") inputHistoryKey =
        PyVal.lst
          [("I2"), ("I3"), ("I4"), ("I5"), ("I6"), ("I7"), ("I8"), ("I9"),
           ("I10"), ("I11")] ∧
      ([("I2"), ("I3"), ("I4"), ("I5"), ("I6"), ("I7"), ("I8"), ("I9"),
        ("I10"), ("I11")] : List String).length = 10 :=
  c6_history_fifo idCtx (fun _ => rfl) 0 ("I1") ("I2") ("I3") ("I4") ("I5")
    ("I6") ("I7") ("I8") ("I9") ("I10") ("I11") (by decide) (by decide)
    (by decide) (by decide) (by decide) (by decide) (by decide) (by decide)
    (by decide) (by decide) (by decide)

/-! ## Theorems: claim C10 -/

theorem addSession_lookup (st : KernelState) (sid : String) :
    ∃ sess, alookup sid (addSession st sid).sessions = some sess := by
  unfold addSession
  cases h : alookup sid st.sessions with
  | none => exact ⟨newSession, by simp [alookup_aset_self]⟩
  | some sess =>
    cases sess with
    | nil => exact ⟨newSession, by simp [alookup_aset_self]⟩
    | cons b bs => exact ⟨b :: bs, by simp [h]⟩

theorem getPredicate_set_same (st : KernelState) (sid k : String) (v : PyVal) :
    getPredicate (setPredicate st sid k v) sid k = v := by
  obtain ⟨sess, hsess⟩ := addSession_lookup st sid
  unfold setPredicate
  dsimp only
  rw [hsess]
  simp [getPredicate, alookup_aset_self]

theorem stackOf_set_stack (st : KernelState) (sid : String) (v : PyVal) :
    stackOf (setPredicate st sid inputStackKey v) sid = v :=
  getPredicate_set_same st sid inputStackKey v

theorem StackEvolved_refl (sid : String) (st : KernelState) :
    StackEvolved sid st st :=
  Or.inl rfl

theorem StackEvolved_trans (sid : String) (st1 st2 st3 : KernelState)
    (h1 : StackEvolved sid st1 st2) (h2 : StackEvolved sid st2 st3) :
    StackEvolved sid st1 st3 := by
  rcases h2 with h2 | h2 | h2
  · rw [StackEvolved, h2]
    exact h1
  · exact Or.inr (Or.inl h2)
  · exact Or.inr (Or.inr h2)

/-- Writing any predicate other than the input stack either leaves the
stack untouched (live session) or re-creates it empty (fresh session). -/
theorem StackEvolved_set (st : KernelState) (sid k : String) (v : PyVal)
    (hk : k ≠ inputStackKey) :
    StackEvolved sid st (setPredicate st sid k v) := by
  have hne : inputStackKey ≠ k := Ne.symm hk
  unfold setPredicate
  dsimp only
  cases h : alookup sid st.sessions with
  | some sess =>
    cases sess with
    | cons b bs =>
      have hadd : addSession st sid = st := by
        unfold addSession
        rw [h]
      rw [hadd]
      rw [h]
      left
      simp only [stackOf, getPredicate, alookup_aset_self, h,
        alookup_aset_ne k inputStackKey v (b :: bs) hne]
    | nil =>
      have hadd : addSession st sid =
          { st with sessions := aset sid newSession st.sessions } := by
        unfold addSession
        rw [h]
      rw [hadd]
      have hlk : alookup sid (aset sid newSession st.sessions) = some newSession :=
        alookup_aset_self sid newSession st.sessions
      rw [hlk]
      right; right
      simp only [stackOf, getPredicate, alookup_aset_self,
        alookup_aset_ne k inputStackKey v newSession hne]
      rfl
  | none =>
    have hadd : addSession st sid =
        { st with sessions := aset sid newSession st.sessions } := by
      unfold addSession
      rw [h]
    rw [hadd]
    have hlk : alookup sid (aset sid newSession st.sessions) = some newSession :=
      alookup_aset_self sid newSession st.sessions
    rw [hlk]
    right; right
    simp only [stackOf, getPredicate, alookup_aset_self,
      alookup_aset_ne k inputStackKey v newSession hne]
    rfl

theorem dropLast_append_single (l : List String) (x : String) :
    (l ++ [x]).dropLast = l := by
  induction l with
  | nil => rfl
  | cons a as ihp =>
    cases has : as ++ [x] with
    | nil => exact absurd has (by simp)
    | cons b bs =>
      simp only [List.cons_append, has, List.dropLast_cons₂, List.cons.injEq,
        true_and]
      rw [← has, ihp]

theorem pyPop_append (l : List String) (x : String) :
    pyPop (PyVal.lst (l ++ [x])) = Except.ok l := by
  cases hl : l ++ [x] with
  | nil => exact absurd hl (by simp)
  | cons b bs =>
    simp only [pyPop]
    rw [← hl, dropLast_append_single]

theorem pyAppend_ne_assert (v : PyVal) (x : String) :
    pyAppend v x ≠ Except.error PyErr.assertionError := by
  cases v <;> simp [pyAppend]

theorem pyPop_ne_assert (v : PyVal) :
    pyPop v ≠ Except.error PyErr.assertionError := by
  cases v with
  | str s => simp [pyPop]
  | lst l => cases l <;> simp [pyPop]

/-- The evaluator never raises an AssertionError: the only assert of the
modelled code is the input-stack check at the end of Kernel.respond, outside
the evaluator. -/
theorem evalK_no_assert (ctx : EvalCtx) :
    ∀ (fuel : Nat) (req : EvalReq),
      evalK ctx fuel req ≠ Except.error PyErr.assertionError := by
  intro fuel
  induction fuel with
  | zero =>
    intro req h
    simp [evalK] at h
  | succ fuel ih =>
    intro req h
    cases req with
    | elem st sid e =>
      cases e with
      | text sp c => simp [evalK] at h
      | tag name attrs children =>
        simp only [evalK] at h
        repeat' split at h
        all_goals simp_all [pyAppend_ne_assert, pyPop_ne_assert]
        all_goals exact ih _ h
    | children st sid es =>
      cases es with
      | nil => simp [evalK] at h
      | cons e rest =>
        simp only [evalK] at h
        repeat' split at h
        all_goals simp_all [pyAppend_ne_assert, pyPop_ne_assert]
        all_goals exact ih _ h
    | cond st sid attrs cs =>
      simp only [evalK] at h
      repeat' split at h
      all_goals simp_all [pyAppend_ne_assert, pyPop_ne_assert]
      all_goals exact ih _ h
    | scan st sid nameAttr lastLi items =>
      cases items with
      | nil =>
        simp only [evalK] at h
        repeat' split at h
        all_goals simp_all [pyAppend_ne_assert, pyPop_ne_assert]
        all_goals exact ih _ h
      | cons li rest =>
        cases nameAttr with
        | some n =>
          simp only [evalK] at h
          repeat' split at h
          all_goals simp_all [pyAppend_ne_assert, pyPop_ne_assert]
          all_goals exact ih _ h
        | none =>
          cases hn : alookup ("name") li.attrs with
          | some n2 =>
            simp only [evalK, hn] at h
            repeat' split at h
            all_goals simp_all [pyAppend_ne_assert, pyPop_ne_assert]
            all_goals exact ih _ h
          | none =>
            simp only [evalK, hn] at h
            repeat' split at h
            all_goals simp_all [pyAppend_ne_assert, pyPop_ne_assert]
            all_goals exact ih _ h
    | respond st sid input =>
      simp only [evalK] at h
      repeat' split at h
      all_goals simp_all [pyAppend_ne_assert, pyPop_ne_assert]
      all_goals exact ih _ h

/-- The input-stack discipline of the evaluator: a completed Kernel._respond
call leaves the session's input stack exactly as it found it (it pops
precisely the entry it pushed, and the depth-limit branch returns before
pushing anything), while a completed element-interpretation step can change
the stack only by a set element writing a string over it or by a predicate
write re-creating a fresh session with an empty stack. -/
theorem evalK_stack (ctx : EvalCtx) :
    ∀ fuel : Nat,
      (∀ st sid input r st2,
        evalK ctx fuel (EvalReq.respond st sid input) = Except.ok (r, st2) →
        stackOf st2 sid = stackOf st sid) ∧
      (∀ st sid e r st2,
        evalK ctx fuel (EvalReq.elem st sid e) = Except.ok (r, st2) →
        StackEvolved sid st st2) ∧
      (∀ st sid es r st2,
        evalK ctx fuel (EvalReq.children st sid es) = Except.ok (r, st2) →
        StackEvolved sid st st2) ∧
      (∀ st sid attrs cs r st2,
        evalK ctx fuel (EvalReq.cond st sid attrs cs) = Except.ok (r, st2) →
        StackEvolved sid st st2) ∧
      (∀ st sid nameAttr lastLi items r st2,
        evalK ctx fuel (EvalReq.scan st sid nameAttr lastLi items) =
          Except.ok (r, st2) →
        StackEvolved sid st st2) := by
  intro fuel
  induction fuel with
  | zero =>
    refine ⟨?_, ?_, ?_, ?_, ?_⟩ <;> (intros; simp_all [evalK])
  | succ fuel ih =>
    obtain ⟨ihR, ihE, ihC, ihD, ihS⟩ := ih
    refine ⟨?_, ?_, ?_, ?_, ?_⟩
    · -- respond
      intro st sid input r st2 h
      simp only [evalK] at h
      split at h
      · simp only [Except.ok.injEq, Prod.mk.injEq] at h
        rw [← h.2]
      · split at h
        · simp only [Except.ok.injEq, Prod.mk.injEq] at h
          rw [← h.2]
        · split at h
          · simp at h
          · rename_i stack1 happ
            split at h
            · simp at h
            · rename_i topic htopic
              cases hv : getPredicate st sid inputStackKey with
              | str s0 =>
                rw [hv] at happ
                simp [pyAppend] at happ
              | lst l =>
                rw [hv] at happ
                simp only [pyAppend, Except.ok.injEq] at happ
                subst happ
                split at h
                · -- no match: pop and return
                  split at h
                  · simp at h
                  · rename_i stack2 hpop
                    rw [getPredicate_set_same, pyPop_append] at hpop
                    simp only [Except.ok.injEq] at hpop
                    subst hpop
                    simp only [Except.ok.injEq, Prod.mk.injEq] at h
                    rw [← h.2, stackOf_set_stack, stackOf, hv]
                · -- matched template: interpret, then pop
                  rename_i elem hmat
                  split at h
                  · simp at h
                  · rename_i r0 stA helem
                    split at h
                    · simp at h
                    · rename_i stack2 hpop
                      have hev := ihE _ sid elem r0 stA helem
                      rcases hev with hev | ⟨s3, hev⟩ | hev
                      · rw [stackOf_set_stack] at hev
                        rw [show getPredicate stA sid inputStackKey =
                            stackOf stA sid from rfl, hev, pyPop_append] at hpop
                        simp only [Except.ok.injEq] at hpop
                        subst hpop
                        simp only [Except.ok.injEq, Prod.mk.injEq] at h
                        rw [← h.2, stackOf_set_stack, stackOf, hv]
                      · rw [show getPredicate stA sid inputStackKey =
                            stackOf stA sid from rfl, hev] at hpop
                        simp [pyPop] at hpop
                      · rw [show getPredicate stA sid inputStackKey =
                            stackOf stA sid from rfl, hev] at hpop
                        simp [pyPop] at hpop
    · -- elem
      intro st sid e r st2 h
      cases e with
      | text sp c =>
        simp only [evalK, Except.ok.injEq, Prod.mk.injEq] at h
        rw [← h.2]
        exact StackEvolved_refl sid st
      | tag name attrs children =>
        simp only [evalK] at h
        split at h
        · exact ihC st sid children r st2 h
        · split at h
          · exact ihC st sid children r st2 h
          · split at h
            · -- bot
              split at h
              · simp at h
              · simp only [Except.ok.injEq, Prod.mk.injEq] at h
                rw [← h.2]
                exact StackEvolved_refl sid st
            · split at h
              · -- get
                split at h
                · simp at h
                · split at h
                  · simp only [Except.ok.injEq, Prod.mk.injEq] at h
                    rw [← h.2]
                    exact StackEvolved_refl sid st
                  · simp at h
              · split at h
                · -- set
                  split at h
                  · simp at h
                  · rename_i v1 st1 hch
                    split at h
                    · simp at h
                    · rename_i n hn
                      simp only [Except.ok.injEq, Prod.mk.injEq] at h
                      rw [← h.2]
                      refine StackEvolved_trans sid st st1 _
                        (ihC st sid children v1 st1 hch) ?_
                      by_cases hkey : n = inputStackKey
                      · subst hkey
                        exact Or.inr (Or.inl ⟨v1, stackOf_set_stack st1 sid
                          (PyVal.str v1)⟩)
                      · exact StackEvolved_set st1 sid n (PyVal.str v1) hkey
                · split at h
                  · -- think
                    split at h
                    · simp at h
                    · rename_i v1 st1 hch
                      simp only [Except.ok.injEq, Prod.mk.injEq] at h
                      rw [← h.2]
                      exact ihC st sid children v1 st1 hch
                  · split at h
                    · -- srai
                      split at h
                      · simp at h
                      · rename_i newInput st1 hch
                        have hresp := ihR st1 sid newInput r st2 h
                        refine StackEvolved_trans sid st st1 st2
                          (ihC st sid children newInput st1 hch) ?_
                        exact Or.inl hresp
                    · split at h
                      · -- condition
                        exact ihD st sid attrs children r st2 h
                      · -- unknown tag
                        simp only [Except.ok.injEq, Prod.mk.injEq] at h
                        rw [← h.2]
                        exact StackEvolved_refl sid st
    · -- children
      intro st sid es r st2 h
      cases es with
      | nil =>
        simp only [evalK, Except.ok.injEq, Prod.mk.injEq] at h
        rw [← h.2]
        exact StackEvolved_refl sid st
      | cons e rest =>
        simp only [evalK] at h
        split at h
        · simp at h
        · rename_i r1 st1 heq1
          split at h
          · simp at h
          · rename_i r2 stB heq2
            simp only [Except.ok.injEq, Prod.mk.injEq] at h
            rw [← h.2]
            exact StackEvolved_trans sid st st1 stB
              (ihE st sid e r1 st1 heq1) (ihC st1 sid rest r2 stB heq2)
    · -- cond
      intro st sid attrs cs r st2 h
      simp only [evalK] at h
      split at h
      · split at h
        · exact ihC st sid cs r st2 h
        · simp only [Except.ok.injEq, Prod.mk.injEq] at h
          rw [← h.2]
          exact StackEvolved_refl sid st
      · split at h
        · simp only [Except.ok.injEq, Prod.mk.injEq] at h
          rw [← h.2]
          exact StackEvolved_refl sid st
        · rename_i l0 ls hfil
          exact ihS st sid _ _ _ r st2 h
    · -- scan
      intro st sid nameAttr lastLi items r st2 h
      cases items with
      | nil =>
        simp only [evalK] at h
        split at h
        · simp only [Except.ok.injEq, Prod.mk.injEq] at h
          rw [← h.2]
          exact StackEvolved_refl sid st
        · exact ihE st sid lastLi r st2 h
      | cons li rest =>
        simp only [evalK] at h
        split at h
        · exact ihS st sid nameAttr lastLi rest r st2 h
        · split at h
          · simp at h
          · rename_i liName hname
            split at h
            · simp at h
            · rename_i liValue hvalue
              split at h
              · exact ihE st sid li r st2 h
              · exact ihS st sid nameAttr lastLi rest r st2 h

/-- A session whose input stack is bound to the empty list exists and is a
non-empty dictionary, so Kernel._add_session leaves the state unchanged. -/
theorem addSession_of_stack (st : KernelState) (sid : String)
    (h : stackOf st sid = PyVal.lst []) : addSession st sid = st := by
  unfold stackOf getPredicate at h
  cases hs : alookup sid st.sessions with
  | none => rw [hs] at h; simp at h
  | some sess =>
    rw [hs] at h
    cases sess with
    | nil => simp [alookup] at h
    | cons b bs =>
      unfold addSession
      rw [hs]

/-- Writing any predicate other than the input stack preserves an empty
input stack. -/
theorem stackOf_set_other (st : KernelState) (sid k : String) (v : PyVal)
    (hk : k ≠ inputStackKey) (h : stackOf st sid = PyVal.lst []) :
    stackOf (setPredicate st sid k v) sid = PyVal.lst [] := by
  have hne : inputStackKey ≠ k := Ne.symm hk
  have hadd : addSession st sid = st := addSession_of_stack st sid h
  unfold stackOf getPredicate at h ⊢
  unfold setPredicate
  rw [hadd]
  cases hs : alookup sid st.sessions with
  | none => rw [hs] at h; simp at h
  | some sess =>
    rw [hs] at h
    dsimp only at h ⊢
    rw [hs]
    dsimp only
    simp only [alookup_aset_self]
    rw [alookup_aset_ne k inputStackKey v sess hne]
    exact h

/-- The per-sentence loop of Kernel.respond preserves an empty input stack
and can never raise the final assertion: each Kernel._respond call restores
the stack it was given, and the history writes touch other predicates. -/
theorem respondLoop_stack (ctx : EvalCtx) (fuel : Nat) (sid : String)
    (sents : List String) :
    ∀ (acc : String) (st : KernelState),
      stackOf st sid = PyVal.lst [] →
      ∀ res, respondLoop ctx fuel sid sents acc st = res →
        res ≠ Except.error PyErr.assertionError ∧
        (∀ r st2, res = Except.ok (r, st2) → stackOf st2 sid = PyVal.lst []) := by
  induction sents with
  | nil =>
    intro acc st hst res hres
    have hg : getPredicate st sid inputStackKey = PyVal.lst [] := hst
    simp [respondLoop, hg, pyLen] at hres
    subst hres
    refine ⟨by simp, ?_⟩
    intro r st2 hok
    simp only [Except.ok.injEq, Prod.mk.injEq] at hok
    rw [← hok.2]
    exact hst
  | cons s rest ih =>
    intro acc st hst res hres
    simp only [respondLoop] at hres
    split at hres
    · rename_i err happ
      subst hres
      refine ⟨?_, ?_⟩
      · intro hassert
        simp only [Except.error.injEq] at hassert
        subst hassert
        exact pyAppend_ne_assert _ _ happ
      · intro r st2 hok
        simp at hok
    · rename_i ihist happ
      split at hres
      · rename_i err hresp
        subst hres
        refine ⟨?_, ?_⟩
        · intro hassert
          simp only [Except.error.injEq] at hassert
          subst hassert
          exact evalK_no_assert ctx fuel _ hresp
        · intro r st2 hok
          simp at hok
      · rename_i resp stB hresp
        split at hres
        · rename_i err hohapp
          subst hres
          refine ⟨?_, ?_⟩
          · intro hassert
            simp only [Except.error.injEq] at hassert
            subst hassert
            exact pyAppend_ne_assert _ _ hohapp
          · intro r st2 hok
            simp at hok
        · rename_i ohist hohapp
          have hst1 : stackOf (setPredicate st sid inputHistoryKey
              (PyVal.lst (trimHistory ihist))) sid = PyVal.lst [] :=
            stackOf_set_other st sid inputHistoryKey _ (by decide) hst
          have hstB : stackOf stB sid = PyVal.lst [] := by
            have h2 := (evalK_stack ctx fuel).1 _ sid s resp stB hresp
            rw [h2]
            exact hst1
          have hst3 : stackOf (setPredicate stB sid outputHistoryKey
              (PyVal.lst (trimHistory ohist))) sid = PyVal.lst [] :=
            stackOf_set_other stB sid outputHistoryKey _ (by decide) hstB
          exact ih _ _ hst3 res hres

/-- Kernel.respond from a session with an empty input stack: no
AssertionError, and the stack is empty again afterwards. -/
theorem respond_stack (ctx : EvalCtx) (fuel : Nat) (sid : String)
    (st : KernelState) (h : stackOf st sid = PyVal.lst []) (input : String) :
    respond ctx fuel st sid input ≠ Except.error PyErr.assertionError ∧
    (∀ r st2, respond ctx fuel st sid input = Except.ok (r, st2) →
      stackOf st2 sid = PyVal.lst []) := by
  unfold respond
  by_cases hin : input = ("")
  · rw [if_pos hin]
    refine ⟨by simp, ?_⟩
    intro r st2 hok
    simp only [Except.ok.injEq, Prod.mk.injEq] at hok
    rw [← hok.2]
    exact h
  · rw [if_neg hin]
    dsimp only
    rw [addSession_of_stack st sid h]
    exact respondLoop_stack ctx fuel sid (ctx.sentences input) ("") st h _ rfl

/-- C10: the assertion at the end of Kernel.respond (kernel.py line 365) is
valid.  Starting from a session whose input-stack predicate is the empty
list, Kernel.respond never raises AssertionError, every completed call
leaves the input stack empty again (each Kernel._respond invocation pops
exactly the entry it pushed, and the depth-limit branch returns before
pushing), and hence a whole sequence of top-level respond calls is free of
AssertionError. -/
theorem c10_input_stack_assertion (ctx : EvalCtx) (fuel : Nat) (sid : String)
    (st : KernelState) (h : stackOf st sid = PyVal.lst []) :
    (∀ input, respond ctx fuel st sid input ≠
      Except.error PyErr.assertionError) ∧
    (∀ input r st2, respond ctx fuel st sid input = Except.ok (r, st2) →
      stackOf st2 sid = PyVal.lst []) ∧
    (∀ inputs, respondSeq ctx fuel sid inputs st ≠
      Except.error PyErr.assertionError) := by
  have hseq : ∀ (inputs : List String) (st0 : KernelState),
      stackOf st0 sid = PyVal.lst [] →
      respondSeq ctx fuel sid inputs st0 ≠ Except.error PyErr.assertionError := by
    intro inputs
    induction inputs with
    | nil =>
      intro st0 h0 hcon
      simp [respondSeq] at hcon
    | cons s rest ih =>
      intro st0 h0 hcon
      simp only [respondSeq] at hcon
      split at hcon
      · rename_i err hr
        simp only [Except.error.injEq] at hcon
        subst hcon
        exact (respond_stack ctx fuel sid st0 h0 s).1 hr
      · rename_i r1 st1 hr
        exact ih st1 ((respond_stack ctx fuel sid st0 h0 s).2 r1 st1 hr) hcon
  exact ⟨fun input => (respond_stack ctx fuel sid st h input).1,
         fun input r st2 => (respond_stack ctx fuel sid st h input).2 r st2,
         fun inputs => hseq inputs st h⟩

/-- Witness for c10_input_stack_assertion: the fresh kernel state's global
session starts with an empty input stack, and a concrete respond call on it
does not raise AssertionError. -/
theorem c10_input_stack_assertion_witness :
    stackOf freshKernelState ("_global") = PyVal.lst [] ∧
    respond idCtx 5 freshKernelState ("_global") ("HI") ≠
      Except.error PyErr.assertionError :=
  ⟨rfl,
   (c10_input_stack_assertion idCtx 5 ("_global") freshKernelState rfl).1 ("HI")⟩
